import Mathlib

/-!
Verification development for the mchilli/macropad CircuitPython firmware
(src/circuitpython/code.py and src/circuitpython/utils).  The firmware is
shallowly embedded: JSON data is modelled by `JVal`, `json.loads` by
`jsonParse`, the macro interpreter `run_macro` by `runMacro`, the deferred
queue handling of the main loop by `tickDelayed`, the key/retrigger part of
the main loop by `tickKeys`, the navigation stack operations by
`openGroup`/`closeGroup`/`goToRoot`, the tab renderer `_update_tab` by
`updateTab`, and the serial command handler `_handle_serial_data` by
`handleSerialData`.  Python exceptions that the source does not catch are
modelled with `Except String`.
-/

attribute [local semireducible] Rat.add Rat.sub Rat.mul Rat.inv

/-- JSON values as produced by `json.load` / `json.loads`.  Objects keep
insertion order; duplicate keys are collapsed with last-value-wins, as in
Python dicts. -/
inductive JVal : Type where
  | null : JVal
  | bool (b : Bool) : JVal
  | num (q : Rat) : JVal
  | str (s : String) : JVal
  | arr (elems : List JVal) : JVal
  | obj (fields : List (String × JVal)) : JVal

/-- Lookup in a Python dict modelled as an insertion-ordered association
list (first matching key wins; dicts never hold duplicate keys). -/
def dictLookup (m : List (String × JVal)) (k : String) : Option JVal :=
  match m with
  | [] => none
  | (k1, v1) :: rest => if k1 = k then some v1 else dictLookup rest k

/-- Python `d[k] = v` on a dict: replace the value of an existing key in
place, otherwise append the new key at the end. -/
def dictSet (m : List (String × JVal)) (k : String) (v : JVal) : List (String × JVal) :=
  match m with
  | [] => [(k, v)]
  | (k1, v1) :: rest => if k1 = k then (k1, v) :: rest else (k1, v1) :: dictSet rest k v

/-- Python `dict.update`: fold `d[k] = v` over the other dict's items. -/
def dictUpdate (m : List (String × JVal)) (other : List (String × JVal)) :
    List (String × JVal) :=
  other.foldl (fun acc kv => dictSet acc kv.1 kv.2) m

/-- Python truthiness of a JSON value (`if key_id:`-style tests). -/
def jvTruthy : JVal → Bool
  | .null => false
  | .bool b => b
  | .num q => if q = 0 then false else true
  | .str s => if s = "" then false else true
  | .arr [] => false
  | .arr (_ :: _) => true
  | .obj [] => false
  | .obj (_ :: _) => true

/-- Python `str()` of a JSON value, as used by `str(macro)` in
`_save_macros` and `str(key_id)` in `_update_tab`.  Faithful for strings,
booleans, `None` and integral numbers; the textual repr of containers and
non-integral floats is not needed by any claim and is modelled by fixed
placeholders. -/
def pyStr : JVal → String
  | .str s => s
  | .bool true => "True"
  | .bool false => "False"
  | .null => "None"
  | .num q => if q.den = 1 then toString q.num else "float-repr"
  | .arr _ => "list-repr"
  | .obj _ => "dict-repr"

/-- `d[k]` on a JSON value: `KeyError` when the key is missing from an
object, `TypeError` when indexing a non-object with a string key. -/
def objIndex (fields : List (String × JVal)) (k : String) : Except String JVal :=
  match dictLookup fields k with
  | some v => .ok v
  | none => .error ("KeyError: " ++ k)

/-- `v[k]` for an arbitrary JSON value. -/
def jvIndex (v : JVal) (k : String) : Except String JVal :=
  match v with
  | .obj fields => objIndex fields k
  | _ => .error "TypeError"

/-! ### A model of the CircuitPython `json` parser

`json.loads` is modelled by a recursive-descent parser over the character
list, with a fuel argument bounding the recursion.  It is slightly more
permissive than CPython's parser in corners no claim exercises (raw control
characters inside strings are accepted, `\uXXXX` escapes are not supported,
a trailing comma before a closing bracket is accepted). -/

/-- Skip JSON whitespace. -/
def skipWs : List Char → List Char
  | [] => []
  | c :: rest =>
    if c = ' ' ∨ c = '\n' ∨ c = '\t' ∨ c = '\r' then skipWs rest else c :: rest

/-- Meaning of a backslash escape inside a JSON string; `none` is a parse
error (invalid escape). -/
def unescapeChar (c : Char) : Option Char :=
  if c = '"' then some '"'
  else if c = '\\' then some '\\'
  else if c = '/' then some '/'
  else if c = 'b' then some (Char.ofNat 8)
  else if c = 'f' then some (Char.ofNat 12)
  else if c = 'n' then some '\n'
  else if c = 'r' then some (Char.ofNat 13)
  else if c = 't' then some '\t'
  else none

/-- Parse the rest of a JSON string literal (the opening quote has been
consumed), accumulating the decoded characters. -/
def parseJStringAux (acc : List Char) : List Char → Option (String × List Char)
  | [] => none
  | c :: rest =>
    if c = '\\' then
      match rest with
      | [] => none
      | e :: rest2 =>
        match unescapeChar e with
        | some c2 => parseJStringAux (acc ++ [c2]) rest2
        | none => none
    else if c = '"' then some (String.mk acc, rest)
    else parseJStringAux (acc ++ [c]) rest

/-- Parse a JSON string literal body. -/
def parseJString (cs : List Char) : Option (String × List Char) :=
  parseJStringAux [] cs

/-- Take a maximal run of decimal digits. -/
def takeDigits : List Char → List Char × List Char
  | [] => ([], [])
  | c :: rest =>
    if c.isDigit then
      let p := takeDigits rest
      (c :: p.1, p.2)
    else ([], c :: rest)

/-- Numeric value of a digit run. -/
def digitsToNat (ds : List Char) : Nat :=
  ds.foldl (fun a c => a * 10 + (c.toNat - 48)) 0

/-- Parse the optional fractional part of a JSON number. -/
def parseFrac (ipart : Rat) : List Char → Option (Rat × List Char)
  | '.' :: r =>
    match takeDigits r with
    | ([], _) => none
    | (ds, rest) =>
      some (ipart + (digitsToNat ds : Rat) / ((10 : Rat) ^ ds.length), rest)
  | cs => some (ipart, cs)

/-- Parse the optional exponent part of a JSON number. -/
def parseExp (m : Rat) : List Char → Option (Rat × List Char)
  | [] => some (m, [])
  | c :: r =>
    if c = 'e' ∨ c = 'E' then
      let p : Int × List Char :=
        match r with
        | '+' :: rr => (1, rr)
        | '-' :: rr => (-1, rr)
        | _ => (1, r)
      match takeDigits p.2 with
      | ([], _) => none
      | (ds, rest) => some (m * (10 : Rat) ^ (p.1 * (digitsToNat ds : Int)), rest)
    else some (m, c :: r)

/-- Parse a JSON number. -/
def parseNumber (cs : List Char) : Option (Rat × List Char) :=
  let p : Bool × List Char :=
    match cs with
    | '-' :: r => (true, r)
    | _ => (false, cs)
  match takeDigits p.2 with
  | ([], _) => none
  | (ds, cs2) =>
    match parseFrac (digitsToNat ds : Rat) cs2 with
    | none => none
    | some (q1, cs3) =>
      match parseExp q1 cs3 with
      | none => none
      | some (q2, cs4) => some ((if p.1 then -q2 else q2), cs4)

mutual

/-- Parse one JSON value (after optional whitespace). -/
def parseVal : Nat → List Char → Option (JVal × List Char)
  | 0, _ => none
  | fuel + 1, cs =>
    match skipWs cs with
    | '"' :: rest => (parseJString rest).map (fun p => (JVal.str p.1, p.2))
    | '\x7b' :: rest =>
      (match skipWs rest with
       | '\x7d' :: r2 => some (JVal.obj [], r2)
       | _ => parseObjLoop fuel rest [])
    | '[' :: rest =>
      (match skipWs rest with
       | ']' :: r2 => some (JVal.arr [], r2)
       | _ => parseArrLoop fuel rest [])
    | 't' :: 'r' :: 'u' :: 'e' :: rest => some (JVal.bool true, rest)
    | 'f' :: 'a' :: 'l' :: 's' :: 'e' :: rest => some (JVal.bool false, rest)
    | 'n' :: 'u' :: 'l' :: 'l' :: rest => some (JVal.null, rest)
    | cs2 => (parseNumber cs2).map (fun p => (JVal.num p.1, p.2))

/-- Parse the members of a JSON object (a member is expected next). -/
def parseObjLoop : Nat → List Char → List (String × JVal) → Option (JVal × List Char)
  | 0, _, _ => none
  | fuel + 1, cs, acc =>
    match skipWs cs with
    | '"' :: r1 =>
      (match parseJString r1 with
       | none => none
       | some (k, r2) =>
         match skipWs r2 with
         | ':' :: r3 =>
           (match parseVal fuel r3 with
            | none => none
            | some (v, r4) =>
              match skipWs r4 with
              | ',' :: r5 => parseObjLoop fuel r5 (dictSet acc k v)
              | '\x7d' :: r5 => some (JVal.obj (dictSet acc k v), r5)
              | _ => none)
         | _ => none)
    | _ => none

/-- Parse the elements of a JSON array (an element is expected next). -/
def parseArrLoop : Nat → List Char → List JVal → Option (JVal × List Char)
  | 0, _, _ => none
  | fuel + 1, cs, acc =>
    match parseVal fuel cs with
    | none => none
    | some (v, r1) =>
      match skipWs r1 with
      | ',' :: r2 => parseArrLoop fuel r2 (acc ++ [v])
      | ']' :: r2 => some (JVal.arr (acc ++ [v]), r2)
      | _ => none

end

/-- `json.loads` on a whole document: one value, then only trailing
whitespace. -/
def jsonParse (s : String) : Option JVal :=
  let cs := s.toList
  match parseVal (2 * cs.length + 2) cs with
  | some (v, rest) => if skipWs rest = [] then some v else none
  | none => none

/-! ### Settings and macro file loading (code.py lines 40-59, 141-169) -/

/-- The built-in `SETTINGS` defaults (code.py lines 40-53). -/
def defaultSettings : List (String × JVal) :=
  [("sleeptime", JVal.num 2),
   ("keyboardlayout", JVal.str "us"),
   ("useunicodefont", JVal.bool false),
   ("fliprotation", JVal.bool false),
   ("brightness", JVal.num (1 / 10)),
   ("invertcolors", JVal.bool false)]

/-- The default root group `MACRODEFAULT` (code.py line 34). -/
def macroDefaultText : String :=
  "\x7b\"type\":\"group\",\"label\":\"Macros\",\"content\":[false,false,false,false,false,false,false,false,false,false,false,false],\"encoder\":\x7b\"switch\":[],\"increased\":[],\"decreased\":[]\x7d\x7d"

/-- Startup settings load (code.py lines 55-59): `try: SETTINGS.update(
json.load(f)) except OSError: pass`.  A missing file raises `OSError`
(caught, defaults kept); a file with invalid JSON raises `ValueError`,
which the `except OSError` clause does not catch, so it propagates; a file
whose top level is not an object makes `dict.update` raise (uncaught). -/
def loadSettingsFile (defaults : List (String × JVal)) (file : Option String) :
    Except String (List (String × JVal)) :=
  match file with
  | none => .ok defaults
  | some s =>
    match jsonParse s with
    | none => .error "ValueError"
    | some (.obj fields) => .ok (dictUpdate defaults fields)
    | some _ => .error "TypeError"

/-- The default macro store substituted by `_init_macros` on any load
failure: a single root group under id "0". -/
def defaultMacroStore : List (String × JVal) :=
  [("0", JVal.str macroDefaultText)]

/-- `_init_macros` file handling (code.py lines 147-151): `try:
macro_store = json.load(f) except Exception: macro_store = default`.  Every
failure (missing file, corrupt JSON) is caught and replaced by the default
single-root store.  (A file that parses to a non-object top level would
leave a non-dict store in the source; that corner is outside this model and
not used by any claim.) -/
def initMacroStore (file : Option String) : List (String × JVal) :=
  match file with
  | none => defaultMacroStore
  | some s =>
    match jsonParse s with
    | some (.obj fields) => fields
    | _ => defaultMacroStore

/-! ### `_save_macros` (code.py lines 155-169) -/

/-- `str(macro).replace("\"", "\\\"")`: escape only double quotes. -/
def escapeQuotes (cs : List Char) : List Char :=
  (cs.map (fun c => if c = '"' then ['\\', '"'] else [c])).flatten

/-- One `"%s":"%s"` entry of the macro file. -/
def renderEntry (kv : String × JVal) : List Char :=
  '"' :: kv.1.toList ++ '"' :: ':' :: '"' :: escapeQuotes (pyStr kv.2).toList ++ ['"']

/-- The entries joined by `",\n"` (the separator is written after every
entry except the last). -/
def renderEntries : List (String × JVal) → List Char
  | [] => []
  | [kv] => renderEntry kv
  | kv :: rest => renderEntry kv ++ ',' :: '\n' :: renderEntries rest

/-- The exact text written by `_save_macros`. -/
def saveMacros (store : List (String × JVal)) : String :=
  String.mk ('\x7b' :: '\n' :: (renderEntries store ++ ['\n', '\x7d']))

/-! ### The macro interpreter `run_macro` (code.py lines 244-423)

Hardware capabilities (the HID keyboard/consumer-control/mouse, the speaker,
MIDI and the `System` class) are external collaborators; their name tables
are abstracted by `ExtIface` and their invocations are recorded as a trace of
`HidEvent`s. -/

/-- A MIDI note as prepared by `_get_midi_notes`: a digit string in 0..127
becomes an int, anything else stays a name string. -/
inductive MidiNote : Type where
  | midiNum (n : Nat) : MidiNote
  | name (s : String) : MidiNote

/-- MIDI messages sent through `macropad.midi.send`. -/
inductive MidiMsg : Type where
  | noteOn (note : MidiNote) (velocity : Rat) : MidiMsg
  | noteOff (note : MidiNote) (velocity : Rat) : MidiMsg
  | pitchBendMsg (v : Rat) : MidiMsg
  | controlChange (num : JVal) (val : Rat) : MidiMsg
  | programChange (num : Rat) : MidiMsg

/-- One capability invocation performed by the interpreter. -/
inductive HidEvent : Type where
  | kbWrite (s : String) : HidEvent
  | kbPress (codes : List Nat) : HidEvent
  | kbRelease (codes : List Nat) : HidEvent
  | kbReleaseAll : HidEvent
  | ccPress (code : Nat) : HidEvent
  | ccRelease : HidEvent
  | mouseClick (btn : Nat) : HidEvent
  | mouseMove (x y w : JVal) : HidEvent
  | mouseReleaseAll : HidEvent
  | playToneEv (frequency : JVal) (duration : Rat) : HidEvent
  | startToneEv (frequency : JVal) : HidEvent
  | stopToneEv : HidEvent
  | playFileEv (v : JVal) : HidEvent
  | midiSend (msgs : List MidiMsg) : HidEvent
  | sysCallEv (methodName : String) : HidEvent

/-- The external name tables: `getattr(Keycode, name, None)`,
`getattr(ConsumerControlCode, name, None)`, `getattr(Mouse, name +
"_BUTTON", None)`, `getattr(System, name, None)`, and whether constructing
a NoteOn/NoteOff from a non-digit note name succeeds in the MIDI library. -/
structure ExtIface : Type where
  keycode : String → Option Nat
  consumerCode : String → Option Nat
  mouseButton : String → Option Nat
  sysMethod : String → Bool
  noteOk : String → Bool

/-- Interpreter-visible state: the monotonic clock (advanced by
`time.sleep`), the `delayed_macros` queue, the running `pitch_bend` value
(centre 8192) and the trace of capability invocations. -/
structure RunState : Type where
  now : Rat
  delayed : List (String × Nat × Bool × Rat)
  pitchBend : Rat
  events : List HidEvent

/-- Record one capability invocation. -/
def emit (e : HidEvent) (st : RunState) : RunState :=
  { st with events := st.events ++ [e] }

/-- `time.sleep(d)`: the monotonic clock advances by `d`. -/
def sleepq (d : Rat) (st : RunState) : RunState :=
  { st with now := st.now + d }

/-- Due time of a `delayed_macros` entry (its fourth component). -/
def dueOf (e : String × Nat × Bool × Rat) : Rat :=
  e.2.2.2

/-- Stable insertion, keeping entries with equal due times in their
original order. -/
def insByDue (a : String × Nat × Bool × Rat) :
    List (String × Nat × Bool × Rat) → List (String × Nat × Bool × Rat)
  | [] => [a]
  | x :: xs => if dueOf a ≤ dueOf x then a :: x :: xs else x :: insByDue a xs

/-- `list.sort(key=lambda x: x[3])`: a stable sort by due time. -/
def sortByDue : List (String × Nat × Bool × Rat) → List (String × Nat × Bool × Rat)
  | [] => []
  | x :: xs => insByDue x (sortByDue xs)

/-- `_add_delayed_macro` (code.py lines 223-233): append `(key_id,
start_index, key_pressed, time.monotonic() + delay)` and keep the queue
sorted by execution time. -/
def addDelayedMacro (keyId : String) (startIndex : Nat) (keyPressed : Bool)
    (delay : Rat) (st : RunState) : RunState :=
  { st with delayed := sortByDue (st.delayed ++ [(keyId, startIndex, keyPressed, st.now + delay)]) }

/-- Python `str.upper()` (ASCII, as used for code and note names). -/
def upperStr (s : String) : String :=
  String.mk (s.toList.map Char.toUpper)

/-- Split a character list on a separator character (`str.split(sep)` for a
one-character separator: `""` splits to `[""]`, adjacent separators yield
empty fields). -/
def charSplit (sep : Char) : List Char → List (List Char)
  | [] => [[]]
  | c :: rest =>
    let r := charSplit sep rest
    if c = sep then [] :: r
    else
      match r with
      | [] => [[c]]
      | g :: gs => (c :: g) :: gs

/-- Python `s.split(',')`. -/
def splitCommas (s : String) : List String :=
  (charSplit ',' s.toList).map String.mk

/-- `key['kc'].lstrip('-+')`: drop all leading `-` and `+` characters. -/
def lstripPlusMinus (s : String) : String :=
  String.mk (s.toList.dropWhile (fun c => c = '-' ∨ c = '+'))

/-- `spec[0]`; callers only reach this with a non-empty spec. -/
def firstChar (s : String) : Char :=
  match s.toList with
  | [] => ' '
  | c :: _ => c

/-- The `key_codes` list comprehension (code.py lines 293-297): resolve
every comma-separated name of the stripped upper-cased spec, dropping names
without a keycode. -/
def kcCodes (ext : ExtIface) (spec : String) : List Nat :=
  (splitCommas (upperStr (lstripPlusMinus spec))).filterMap ext.keycode

/-- The `'kc'` branch (code.py lines 292-315). -/
def execKc (ext : ExtIface) (spec : String) (keyPressed : Bool) (st : RunState) : RunState :=
  match kcCodes ext spec with
  | [] => st
  | c :: cs =>
    let codes := c :: cs
    if keyPressed then
      if spec = "RELALL" then emit HidEvent.kbReleaseAll st
      else if firstChar spec = '+' then
        emit (HidEvent.kbRelease codes) (emit (HidEvent.kbPress codes) st)
      else if firstChar spec = '-' then emit (HidEvent.kbRelease codes) st
      else emit (HidEvent.kbPress codes) st
    else emit (HidEvent.kbRelease codes) st

/-- The `'ccc'` branch (code.py lines 316-333); `if control_code:` is
Python truthiness, so a zero code is treated like a failed lookup. -/
def execCcc (ext : ExtIface) (spec : String) (keyPressed : Bool) (st : RunState) : RunState :=
  match ext.consumerCode (upperStr (lstripPlusMinus spec)) with
  | none => st
  | some code =>
    if code = 0 then st
    else if keyPressed then
      if firstChar spec = '+' then emit HidEvent.ccRelease (emit (HidEvent.ccPress code) st)
      else if firstChar spec = '-' then emit HidEvent.ccRelease st
      else emit (HidEvent.ccPress code) st
    else emit HidEvent.ccRelease st

/-- The `'mse'` branch (code.py lines 334-346).  On release the value is
never inspected; on press it must be a dict (`"b" in key["mse"]`) and a
present button name must be a string (`.upper()`). -/
def execMse (ext : ExtIface) (mseVal : JVal) (keyPressed : Bool) (st : RunState) :
    Except String RunState :=
  if keyPressed then
    match mseVal with
    | .obj fields =>
      let mx := (dictLookup fields "x").getD (JVal.num 0)
      let my := (dictLookup fields "y").getD (JVal.num 0)
      let mw := (dictLookup fields "w").getD (JVal.num 0)
      match dictLookup fields "b" with
      | some (.str bs) =>
        let st1 :=
          match ext.mouseButton (upperStr bs) with
          | some btn => if btn = 0 then st else emit (HidEvent.mouseClick btn) st
          | none => st
        .ok (emit (HidEvent.mouseMove mx my mw) st1)
      | some _ => .error "AttributeError"
      | none => .ok (emit (HidEvent.mouseMove mx my mw) st)
    | _ => .error "TypeError"
  else .ok (emit HidEvent.mouseReleaseAll st)

/-- The `'tone'` branch (code.py lines 347-357).  On press the duration is
looked up and compared with 0 (a non-numeric duration raises); on release
the tone is stopped without inspecting the value. -/
def execTone (toneVal : JVal) (keyPressed : Bool) (st : RunState) :
    Except String RunState :=
  if keyPressed then
    match jvIndex toneVal "duration" with
    | .error e => .error e
    | .ok duration =>
      match duration with
      | .num d =>
        if 0 < d then
          match jvIndex toneVal "frequency" with
          | .error e => .error e
          | .ok freq => .ok (emit (HidEvent.playToneEv freq d) st)
        else
          match jvIndex toneVal "frequency" with
          | .error e => .error e
          | .ok freq => .ok (emit (HidEvent.startToneEv freq) st)
      | _ => .error "TypeError"
  else .ok (emit HidEvent.stopToneEv st)

/-- Whether constructing a NoteOn/NoteOff from this note succeeds in the
MIDI library (digit notes were already range checked; name notes depend on
the library's parser). -/
def midiNoteOk (ext : ExtIface) : MidiNote → Bool
  | .midiNum _ => true
  | .name s => ext.noteOk s

/-- Python `str.isdigit` for the note strings. -/
def isDigits (s : String) : Bool :=
  match s.toList with
  | [] => false
  | cs => cs.all Char.isDigit

/-- `_get_midi_notes` (code.py lines 611-633): per note, digit strings in
0..127 become ints; NoteOn is built for positive velocity in the `'on'`
state, NoteOff otherwise; every per-note failure (bad name, non-numeric
velocity) is swallowed by the `try` and the note is skipped. -/
def getMidiNotes (ext : ExtIface) (notes : List String) (stateOn : Bool) (velocity : JVal) :
    List MidiMsg :=
  notes.filterMap (fun note =>
    let noteV : MidiNote :=
      if isDigits note ∧ digitsToNat note.toList ≤ 127 then .midiNum (digitsToNat note.toList)
      else .name note
    match velocity with
    | .num v =>
      if 0 < v ∧ stateOn then
        if midiNoteOk ext noteV then some (.noteOn noteV v) else none
      else
        if midiNoteOk ext noteV then some (.noteOff noteV 0) else none
    | _ => none)

/-- The `'midi'` branch (code.py lines 364-416). -/
def execMidi (ext : ExtIface) (midiVal : JVal) (keyPressed : Bool) (st : RunState) :
    Except String RunState :=
  match midiVal with
  | .obj mf =>
    match dictLookup mf "ntson" with
    | some (.str ns) =>
      let notes := splitCommas (upperStr ns)
      (match objIndex mf "vlcty" with
       | .error e => .error e
       | .ok velocity =>
         match objIndex mf "durtn" with
         | .error e => .error e
         | .ok duration =>
           if keyPressed then
             match duration with
             | .num d =>
               if 0 < d then
                 .ok (emit (HidEvent.midiSend (getMidiNotes ext notes false velocity))
                      (sleepq d (emit (HidEvent.midiSend (getMidiNotes ext notes true velocity)) st)))
               else .ok (emit (HidEvent.midiSend (getMidiNotes ext notes true velocity)) st)
             | _ => .error "TypeError"
           else
             match duration with
             | .num d =>
               if d = 0 then
                 .ok (emit (HidEvent.midiSend (getMidiNotes ext notes false (JVal.num 0))) st)
               else .ok st
             | _ => .ok st)
    | some _ => .error "AttributeError"
    | none =>
    match dictLookup mf "ntoff" with
    | some (.str ns) =>
      let notes := splitCommas (upperStr ns)
      if keyPressed then
        .ok (emit (HidEvent.midiSend (getMidiNotes ext notes false (JVal.num 0))) st)
      else .ok st
    | some _ => .error "AttributeError"
    | none =>
    match dictLookup mf "ptchb" with
    | some pv =>
      if keyPressed then
        match pv with
        | .str mode =>
          if mode = "set" then
            match objIndex mf "pbval" with
            | .error e => .error e
            | .ok pbval =>
              match pbval with
              | .num q =>
                if 0 ≤ q ∧ q ≤ 16383 then
                  .ok (emit (HidEvent.midiSend [MidiMsg.pitchBendMsg q]) { st with pitchBend := q })
                else .ok st
              | _ => .error "TypeError"
          else if mode = "incr" then
            match objIndex mf "pbstp" with
            | .error e => .error e
            | .ok pbstp =>
              match pbstp with
              | .num q =>
                let newPb := if st.pitchBend + q ≤ 16383 then st.pitchBend + q else 16383
                .ok (emit (HidEvent.midiSend [MidiMsg.pitchBendMsg newPb]) { st with pitchBend := newPb })
              | _ => .error "TypeError"
          else if mode = "decr" then
            match objIndex mf "pbstp" with
            | .error e => .error e
            | .ok pbstp =>
              match pbstp with
              | .num q =>
                let newPb := if 0 ≤ st.pitchBend - q then st.pitchBend - q else 0
                .ok (emit (HidEvent.midiSend [MidiMsg.pitchBendMsg newPb]) { st with pitchBend := newPb })
              | _ => .error "TypeError"
          else .ok st
        | _ => .ok st
      else .ok st
    | none =>
    match dictLookup mf "ctrch" with
    | some cv =>
      if keyPressed then
        match objIndex mf "ccval" with
        | .error e => .error e
        | .ok ccval =>
          match ccval with
          | .num q =>
            if 0 ≤ q ∧ q ≤ 127 then
              .ok (emit (HidEvent.midiSend [MidiMsg.controlChange cv q]) st)
            else .ok st
          | _ => .error "TypeError"
      else .ok st
    | none =>
    match dictLookup mf "prgch" with
    | some pv =>
      if keyPressed then
        match pv with
        | .num q =>
          if 0 ≤ q ∧ q ≤ 127 then
            .ok (emit (HidEvent.midiSend [MidiMsg.programChange q]) st)
          else .ok st
        | _ => .error "TypeError"
      else .ok st
    | none => .ok st
  | _ => .error "TypeError"

/-- Execute one non-breaking instruction of `run_macro` (every branch of
code.py lines 279-423 except the negative-delay break, which
`runMacroAux` handles).  A Python `bool` is an `int`, so `True`/`False`
fall into the numeric-delay branch as 1/0. -/
def execInst (ext : ExtIface) (keyPressed : Bool) (inst : JVal) (st : RunState) :
    Except String RunState :=
  match inst with
  | .num d => .ok (if keyPressed then sleepq d st else st)
  | .bool b => .ok (if keyPressed then sleepq (if b then 1 else 0) st else st)
  | .str s => .ok (if keyPressed then emit (HidEvent.kbWrite s) st else st)
  | .obj fields =>
    match dictLookup fields "kc" with
    | some (.str spec) => .ok (execKc ext spec keyPressed st)
    | some _ => .error "AttributeError"
    | none =>
    match dictLookup fields "ccc" with
    | some (.str spec) => .ok (execCcc ext spec keyPressed st)
    | some _ => .error "AttributeError"
    | none =>
    match dictLookup fields "mse" with
    | some mv => execMse ext mv keyPressed st
    | none =>
    match dictLookup fields "tone" with
    | some tv => execTone tv keyPressed st
    | none =>
    match dictLookup fields "file" with
    | some fv => .ok (if keyPressed then emit (HidEvent.playFileEv fv) st else st)
    | none =>
    match dictLookup fields "midi" with
    | some mv => execMidi ext mv keyPressed st
    | none =>
    match dictLookup fields "sys" with
    | some (.str methodName) =>
      .ok (if keyPressed then
             (if ext.sysMethod methodName then emit (HidEvent.sysCallEv methodName) st else st)
           else st)
    | some _ => .error "TypeError"
    | none => .ok st
  | _ => .ok st

/-- The loop of `run_macro` (code.py lines 276-284): enumerate the content,
skip indices below `start_index`; a strictly negative numeric delay during
a press records a deferred continuation at `index + 1` and breaks out of
the loop; everything else executes and continues. -/
def runMacroAux (ext : ExtIface) (keyId : String) (startIndex : Nat) (keyPressed : Bool) :
    List JVal → Nat → RunState → Except String RunState
  | [], _, st => .ok st
  | inst :: rest, index, st =>
    if index < startIndex then
      runMacroAux ext keyId startIndex keyPressed rest (index + 1) st
    else
      match inst with
      | .num d =>
        if keyPressed then
          if d < 0 then .ok (addDelayedMacro keyId (index + 1) keyPressed (abs d) st)
          else runMacroAux ext keyId startIndex keyPressed rest (index + 1) (sleepq d st)
        else runMacroAux ext keyId startIndex keyPressed rest (index + 1) st
      | _ =>
        match execInst ext keyPressed inst st with
        | .ok st1 => runMacroAux ext keyId startIndex keyPressed rest (index + 1) st1
        | .error e => .error e

/-- `run_macro(item, start_index, key_pressed)` (code.py line 244). -/
def runMacro (ext : ExtIface) (keyId : String) (content : List JVal) (startIndex : Nat)
    (keyPressed : Bool) (st : RunState) : Except String RunState :=
  runMacroAux ext keyId startIndex keyPressed content 0 st

/-- Iterating `for index, key in enumerate(item[1])` over the value of a
node's `"content"` field: a list iterates its elements, a string its
characters, a dict its keys; other values raise `TypeError`. -/
def contentIter : JVal → Except String (List JVal)
  | .arr l => .ok l
  | .str s => .ok (s.toList.map (fun c => JVal.str (String.mk [c])))
  | .obj fs => .ok (fs.map (fun p => JVal.str p.1))
  | _ => .error "TypeError"

/-- The deferred-macro step of the main loop (code.py lines 702-710): if
the queue is non-empty and the earliest-due entry is due, pop it and resume
`run_macro` on the node's current content from the recorded index. -/
def tickDelayed (ext : ExtIface) (store : List (String × JVal)) (st : RunState) :
    Except String RunState :=
  match st.delayed with
  | [] => .ok st
  | (kid, sidx, prsd, due) :: rest =>
    if due ≤ st.now then
      match dictLookup store kid with
      | none => .error ("KeyError: " ++ kid)
      | some (.str s) =>
        match jsonParse s with
        | none => .error "ValueError"
        | some node =>
          match jvIndex node "content" with
          | .error e => .error e
          | .ok cv =>
            match contentIter cv with
            | .error e => .error e
            | .ok content => runMacro ext kid content sidx prsd { st with delayed := rest }
      | some _ => .error "TypeError"
    else .ok st

/-! ### Navigation stack (code.py lines 425-448)

`group_stack` is a list of node ids whose last element is the top of the
stack; it starts as `["0"]`. -/

/-- `open_group` (code.py lines 425-433): push the node id when the key is
pressed (the stack is untouched on release). -/
def openGroup (stack : List String) (keyId : String) (keyPressed : Bool) : List String :=
  if keyPressed then stack ++ [keyId] else stack

/-- `close_group` (code.py lines 435-441): pop only when more than one
entry is on the stack. -/
def closeGroup (stack : List String) : List String :=
  if 1 < stack.length then stack.dropLast else stack

/-- `go_to_root` (code.py lines 443-448): `del group_stack[1:]`. -/
def goToRoot (stack : List String) : List String :=
  stack.take 1

/-- One navigation call. -/
inductive NavOp : Type where
  | navOpen (keyId : String) (keyPressed : Bool) : NavOp
  | navClose : NavOp
  | navRoot : NavOp

/-- Apply one navigation call to the stack. -/
def navStep (stack : List String) : NavOp → List String
  | .navOpen k p => openGroup stack k p
  | .navClose => closeGroup stack
  | .navRoot => goToRoot stack

/-! ### Key slots and `_update_tab` (code.py lines 450-478, utils/devices.py) -/

/-- The callback bound to a key slot by `_update_tab`'s `key_funcs`
dispatch table. -/
inductive KeyFunc : Type where
  | runMacroFn : KeyFunc
  | openGroupFn : KeyFunc

/-- The data held by one `Key` object (utils/devices.py): type, label,
color, the `retrigger` attribute (assigned only by `_update_tab`, hence
optional), the bound callback and its arguments.  Display styling is
hardware glue and is not modelled. -/
structure KeySlot : Type where
  slotType : Option JVal
  label : JVal
  color : JVal
  retrigger : Option JVal
  func : Option KeyFunc
  funcArgs : Option (String × JVal)

/-- `Key.clear_props` (utils/devices.py lines 129-136): label, type, color
and callback are reset; the `retrigger` attribute is not touched. -/
def clearProps (s : KeySlot) : KeySlot :=
  { s with
    label := JVal.str ""
    slotType := none
    color := JVal.arr [JVal.num 0, JVal.num 0, JVal.num 0]
    func := none
    funcArgs := none }

/-- A freshly constructed `Key` (its `retrigger` attribute has never been
assigned). -/
def initSlot : KeySlot :=
  { slotType := none
    label := JVal.str ""
    color := JVal.arr [JVal.num 0, JVal.num 0, JVal.num 0]
    retrigger := none
    func := none
    funcArgs := none }

/-- Modelled from the spec: `has_callback() -> bool` gates whether a press
is accepted (`has_func` is called by code.py line 716 but the `Key` class
shipped under src/ predates it; the spec defines it as "blank slots must
not record state"). -/
def hasFunc (s : KeySlot) : Bool :=
  s.func.isSome

/-- The `key_funcs` dict lookup `key_funcs.get(key_type)` (code.py lines
453-456, 473): only the string keys "macro" and "group" hit. -/
def keyFuncsGet : JVal → Option KeyFunc
  | .str "macro" => some KeyFunc.runMacroFn
  | .str "group" => some KeyFunc.openGroupFn
  | _ => none

/-- `group["content"][:key_count]` (code.py line 463): slicing a list or a
string, anything else raises `TypeError`. -/
def contentSlice (v : JVal) (count : Nat) : Except String (List JVal) :=
  match v with
  | .arr l => .ok (l.take count)
  | .str s => .ok ((s.toList.take count).map (fun c => JVal.str (String.mk [c])))
  | _ => .error "TypeError"

/-- `macro_data.get("retrigger", False)` (code.py line 472). -/
def nodeRetrigger (node : JVal) : JVal :=
  match node with
  | .obj nf => (dictLookup nf "retrigger").getD (JVal.bool false)
  | _ => JVal.bool false

/-- The slot-filling loop of `_update_tab` (code.py lines 463-473): a falsy
entry leaves the cleared slot; a truthy entry is looked up by `str(key_id)`
in the store (KeyError when missing), its JSON is parsed, and `type`,
`label`, `color` and `content` are read (KeyError when missing), with
`retrigger` defaulting to False. -/
def setSlots (store : List (String × JVal)) :
    List JVal → Nat → List KeySlot → Except String (List KeySlot)
  | [], _, slots => .ok slots
  | e :: rest, i, slots =>
    if jvTruthy e then
      match dictLookup store (pyStr e) with
      | none => .error ("KeyError: " ++ pyStr e)
      | some (.str s) =>
        match jsonParse s with
        | none => .error "ValueError"
        | some node =>
          match jvIndex node "type" with
          | .error err => .error err
          | .ok keyType =>
            match jvIndex node "label" with
            | .error err => .error err
            | .ok lab =>
              match jvIndex node "color" with
              | .error err => .error err
              | .ok col =>
                match jvIndex node "content" with
                | .error err => .error err
                | .ok contentV =>
                  setSlots store rest (i + 1)
                    (slots.set i
                      { slotType := some keyType
                        label := lab
                        color := col
                        retrigger := some (nodeRetrigger node)
                        func := keyFuncsGet keyType
                        funcArgs := some (pyStr e, contentV) })
      | some _ => .error "TypeError"
    else setSlots store rest (i + 1) slots

/-- `_update_tab` (code.py lines 450-478): clear every slot, look up and
parse the top-of-stack node, slice its content to the key count, fill the
slots, then read the group label.  Exceptions propagate to the caller:
there is no fallback for missing ids or non-group nodes. -/
def updateTab (store : List (String × JVal)) (stack : List String)
    (slots : List KeySlot) : Except String (List KeySlot × JVal) :=
  let cleared := slots.map clearProps
  match stack.getLast? with
  | none => .error "IndexError"
  | some top =>
    match dictLookup store top with
    | none => .error ("KeyError: " ++ top)
    | some (.str s) =>
      match jsonParse s with
      | none => .error "ValueError"
      | some group =>
        match jvIndex group "content" with
        | .error err => .error err
        | .ok contentV =>
          match contentSlice contentV cleared.length with
          | .error err => .error err
          | .ok entries =>
            match setSlots store entries 0 cleared with
            | .error err => .error err
            | .ok slots1 =>
              match jvIndex group "label" with
              | .error err => .error err
              | .ok lab => .ok (slots1, lab)
    | some _ => .error "TypeError"

/-- `_update_encoder_macros` (code.py lines 480-489): parse the
top-of-stack node and read `encoder.switch/increased/decreased` with
`.get` (absent fields give `None`). -/
def updateEncoderMacros (store : List (String × JVal)) (stack : List String) :
    Except String (Option JVal × Option JVal × Option JVal) :=
  match stack.getLast? with
  | none => .error "IndexError"
  | some top =>
    match dictLookup store top with
    | none => .error ("KeyError: " ++ top)
    | some (.str s) =>
      match jsonParse s with
      | none => .error "ValueError"
      | some group =>
        match group with
        | .obj gf =>
          match (dictLookup gf "encoder").getD (JVal.obj []) with
          | .obj ef =>
            .ok (dictLookup ef "switch", dictLookup ef "increased", dictLookup ef "decreased")
          | _ => .error "AttributeError"
        | _ => .error "AttributeError"
    | some _ => .error "TypeError"

/-- `_init_group` (code.py lines 215-221): encoder bindings first, then the
tab; either step may raise. -/
def initGroupParts (store : List (String × JVal)) (stack : List String)
    (slots : List KeySlot) :
    Except String ((Option JVal × Option JVal × Option JVal) × List KeySlot × JVal) :=
  match updateEncoderMacros store stack with
  | .error e => .error e
  | .ok enc =>
    match updateTab store stack slots with
    | .error e => .error e
    | .ok tab => .ok (enc, tab)

/-! ### Key events and retriggering in the main loop (code.py lines 712-728) -/

/-- One physical key event as delivered by `keys.events.get()`. -/
inductive KeyEvt : Type where
  | evPressed (n : Nat) : KeyEvt
  | evReleased (n : Nat) : KeyEvt

/-- `active_keys[n] = now` on the Nat-keyed dict. -/
def natDictSet (m : List (Nat × Rat)) (k : Nat) (v : Rat) : List (Nat × Rat) :=
  match m with
  | [] => [(k, v)]
  | (k1, v1) :: rest => if k1 = k then (k1, v) :: rest else (k1, v1) :: natDictSet rest k v

/-- `active_keys.pop(n, None)`. -/
def natDictPop (m : List (Nat × Rat)) (k : Nat) : List (Nat × Rat) :=
  match m with
  | [] => []
  | (k1, v1) :: rest => if k1 = k then rest else (k1, v1) :: natDictPop rest k

/-- `if self.keys[n].retrigger:` — truthiness of the stored attribute; the
attribute is only read on keys that passed `has_func`, and those always had
it assigned by `_update_tab`. -/
def retriggerTruthy (s : KeySlot) : Bool :=
  match s.retrigger with
  | some v => jvTruthy v
  | none => false

/-- The fixed 0.75 second retrigger threshold (code.py line 727). -/
def retriggerThreshold : Rat :=
  3 / 4

/-- The key-event and retrigger part of one main-loop iteration (code.py
lines 712-728).  A press of a key with a callback fires it once (the
`pressed = True` setter) and, when the key's `retrigger` flag is truthy,
records `active_keys[n] = now`; a release removes the entry.  Afterwards
`call_func` fires again for every still-recorded key whose hold time
exceeds the threshold — note the recorded press time is never updated.
Returns the updated `active_keys` dict and the indices on which `call_func`
was invoked this tick, in order. -/
def tickKeys (slots : List KeySlot) (ev : Option KeyEvt) (now : Rat)
    (active : List (Nat × Rat)) : List (Nat × Rat) × List Nat :=
  let p1 : List (Nat × Rat) × List Nat :=
    match ev with
    | some (.evPressed n) =>
      match slots.get? n with
      | some s =>
        if hasFunc s then
          (if retriggerTruthy s then natDictSet active n now else active, [n])
        else (active, [])
      | none => (active, [])
    | some (.evReleased n) => (natDictPop active n, [])
    | none => (active, [])
  let fired2 := (p1.1.filter (fun q => retriggerThreshold < now - q.2)).map (fun q => q.1)
  (p1.1, p1.2 ++ fired2)

/-! ### Application state and the serial handler (code.py lines 104-139,
491-609, 635-640) -/

/-- The pieces of `MacroApp` state the control channel touches.  `settings`
is the in-memory `SETTINGS` dict fixed at boot; `settingsFile` and
`macroFile` model the two persisted files; `readonly` is
`storage.getmount('/').readonly`. -/
structure AppState : Type where
  settings : List (String × JVal)
  settingsFile : Option JVal
  readonly : Bool
  macroStore : List (String × JVal)
  macroFile : Option String
  groupStack : List String
  slots : List KeySlot
  encoderBindings : Option JVal × Option JVal × Option JVal
  displaySleep : Bool
  sleepTimer : Rat

/-- `_display_on` (code.py lines 635-640). -/
def displayOn (now : Rat) (st : AppState) : AppState :=
  { st with displaySleep := false, sleepTimer := now }

/-- A serial response/notification object (insertion-ordered JSON dict). -/
def RespObj : Type :=
  List (String × JVal)

/-- `_handle_serial_data` (code.py lines 491-600).  The result is the new
application state, the list of objects streamed through
`_send_serial_data` during handling, and the returned response (`none`
models Python `None`, which the main loop does not send).  An uncaught
exception inside handling (for example from `_init_group` during a
`set_macros` end) is an `Except.error`; the main loop catches it, sends an
`ERR` object and enters the data-error drain state.  Non-string ids in a
`set_macros` item payload are outside this model (Python would accept any
hashable id).  The `%s` interpolations of the source's error messages are
abbreviated to fixed prefixes. -/
def handleSerialData (st : AppState) (now : Rat) (payload : List (String × JVal)) :
    Except String (AppState × List RespObj × Option RespObj) :=
  match dictLookup payload "command" with
  | none => .ok (st, [], some [("ERR", JVal.str "Wrong payload")])
  | some cmdV =>
    match cmdV with
    | .str "get_settings" =>
      .ok (st, [], some [("ACK", JVal.str "settings"), ("CONTENT", JVal.obj st.settings)])
    | .str "set_settings" =>
      (match dictLookup payload "content" with
       | none => .ok (st, [], some [("ERR", JVal.str "No content")])
       | some content =>
         if st.readonly then
           .ok (st, [], some [("ERR", JVal.str "Cannot set settings because USB storage is enabled")])
         else
           .ok ({ st with settingsFile := some content }, [],
                some [("ACK", JVal.str "Settings are set")]))
    | .str "get_macros" =>
      .ok (st,
           [("ACK", JVal.str "macros"), ("CONTENT", JVal.str "start")] ::
             st.macroStore.map (fun kv =>
               [("ACK", JVal.str "macros"), ("ID", JVal.str kv.1), ("CONTENT", kv.2)]),
           some [("ACK", JVal.str "macros"), ("CONTENT", JVal.str "end")])
    | .str "set_macros" =>
      (match dictLookup payload "content" with
       | none => .ok (st, [], some [("ERR", JVal.str "No content")])
       | some content =>
         match content with
         | .str "start" => .ok ({ st with macroStore := [] }, [], none)
         | .str "end" =>
           (match initGroupParts st.macroStore st.groupStack st.slots with
            | .error e => .error e
            | .ok (enc, slots1, _lab) =>
              .ok (displayOn now { st with slots := slots1, encoderBindings := enc }, [],
                   some [("ACK", JVal.str "Macros received"),
                         ("CONTENT", JVal.num ((st.macroStore.length : Rat) - 1))]))
         | _ =>
           match dictLookup payload "id" with
           | none => .error "KeyError: id"
           | some (.str idv) =>
             .ok ({ st with macroStore := dictSet st.macroStore idv content }, [], none)
           | some _ => .error "TypeError")
    | .str "save_macros" =>
      if st.readonly then
        .ok (st, [], some [("ERR", JVal.str "Cannot store macros because USB storage is enabled")])
      else
        .ok ({ st with macroFile := some (saveMacros st.macroStore) }, [],
             some [("ACK", JVal.str "Macros stored")])
    | .str "enable_usb" =>
      .ok (st, [], some [("ACK", JVal.str "Enable USB")])
    | .str "soft_reset" =>
      .ok (st, [], some [("ACK", JVal.str "Softreset")])
    | .str "hard_reset" =>
      .ok (st, [], some [("ACK", JVal.str "Hardreset")])
    | other =>
      .ok (st, [], some [("ERR", JVal.str ("Unkown command: " ++ pyStr other))])

/-- Handle a sequence of serial payloads, collecting each call's returned
response (streamed notifications are dropped here; none of the payloads
used with this helper produce any). -/
def runPayloads (now : Rat) (st : AppState) :
    List (List (String × JVal)) → Except String (AppState × List (Option RespObj))
  | [] => .ok (st, [])
  | p :: rest =>
    match handleSerialData st now p with
    | .error e => .error e
    | .ok (st1, _sent, resp) =>
      match runPayloads now st1 rest with
      | .error e => .error e
      | .ok (st2, resps) => .ok (st2, resp :: resps)

/-! ### Shared lemmas about the dict model -/

theorem dictLookup_dictSet_self (m : List (String × JVal)) (k : String) (v : JVal) :
    dictLookup (dictSet m k v) k = some v := by
  induction m with
  | nil => simp [dictSet, dictLookup]
  | cons kv rest ih =>
    obtain ⟨k1, v1⟩ := kv
    by_cases h : k1 = k
    · simp [dictSet, dictLookup, h]
    · simp [dictSet, dictLookup, h, ih]

theorem dictLookup_dictSet_other (m : List (String × JVal)) (k k' : String) (v : JVal)
    (h : k' ≠ k) : dictLookup (dictSet m k v) k' = dictLookup m k' := by
  induction m with
  | nil =>
    simp only [dictSet, dictLookup]
    rw [if_neg (fun hh => h hh.symm)]
  | cons kv rest ih =>
    obtain ⟨k1, v1⟩ := kv
    by_cases h1 : k1 = k
    · subst h1
      simp only [dictSet, if_pos rfl, dictLookup]
      rw [if_neg (fun hh : k1 = k' => h hh.symm), if_neg (fun hh : k1 = k' => h hh.symm)]
    · simp only [dictSet, if_neg h1, dictLookup]
      by_cases h2 : k1 = k'
      · rw [if_pos h2, if_pos h2]
      · rw [if_neg h2, if_neg h2, ih]

theorem dictLookup_eq_none_of_not_mem (m : List (String × JVal)) (k : String)
    (h : k ∉ m.map Prod.fst) : dictLookup m k = none := by
  induction m with
  | nil => rfl
  | cons kv rest ih =>
    simp only [List.map_cons, List.mem_cons] at h
    push_neg at h
    simp only [dictLookup]
    rw [if_neg (fun hh : kv.1 = k => h.1 hh.symm)]
    exact ih h.2

theorem dictSet_append_of_none (m : List (String × JVal)) (k : String) (v : JVal)
    (h : dictLookup m k = none) : dictSet m k v = m ++ [(k, v)] := by
  induction m with
  | nil => rfl
  | cons kv rest ih =>
    obtain ⟨k1, v1⟩ := kv
    by_cases h1 : k1 = k
    · simp [dictLookup, h1] at h
    · simp only [dictLookup, if_neg h1] at h
      simp [dictSet, h1, ih h]

theorem dictUpdate_lookup_none (file m : List (String × JVal)) (k : String)
    (h : dictLookup file k = none) :
    dictLookup (dictUpdate m file) k = dictLookup m k := by
  induction file generalizing m with
  | nil => rfl
  | cons kv rest ih =>
    obtain ⟨k1, v1⟩ := kv
    by_cases h1 : k1 = k
    · simp [dictLookup, h1] at h
    · simp only [dictLookup, if_neg h1] at h
      simp only [dictUpdate, List.foldl_cons]
      have := ih (dictSet m k1 v1) h
      simp only [dictUpdate] at this
      rw [this, dictLookup_dictSet_other _ _ _ _ (fun hh => h1 hh.symm)]

theorem dictUpdate_lookup_some (file m : List (String × JVal)) (k : String) (v : JVal)
    (hnd : (file.map Prod.fst).Nodup) (h : dictLookup file k = some v) :
    dictLookup (dictUpdate m file) k = some v := by
  induction file generalizing m with
  | nil => simp [dictLookup] at h
  | cons kv rest ih =>
    obtain ⟨k1, v1⟩ := kv
    simp only [List.map_cons, List.nodup_cons] at hnd
    by_cases h1 : k1 = k
    · subst h1
      have hv : v1 = v := by simpa [dictLookup] using h
      subst hv
      simp only [dictUpdate, List.foldl_cons]
      have hnone : dictLookup rest k1 = none :=
        dictLookup_eq_none_of_not_mem _ _ hnd.1
      have hupd := dictUpdate_lookup_none rest (dictSet m k1 v1) k1 hnone
      simp only [dictUpdate] at hupd
      rw [hupd, dictLookup_dictSet_self]
    · simp only [dictLookup, if_neg h1] at h
      simp only [dictUpdate, List.foldl_cons]
      have := ih (dictSet m k1 v1) hnd.2 h
      simpa only [dictUpdate] using this

/-! ### Claim C6: the navigation stack never drops below depth 1 -/

theorem navStep_pos (stack : List String) (op : NavOp) (h : 0 < stack.length) :
    0 < (navStep stack op).length := by
  cases op with
  | navOpen k p =>
    simp only [navStep, openGroup]
    split
    · simp only [List.length_append, List.length_cons, List.length_nil]
      omega
    · exact h
  | navClose =>
    simp only [navStep, closeGroup]
    split
    · simp only [List.length_dropLast]
      omega
    · exact h
  | navRoot =>
    simp only [navStep, goToRoot, List.length_take]
    omega

theorem navSteps_pos (ops : List NavOp) (stack : List String) (h : 0 < stack.length) :
    0 < (ops.foldl navStep stack).length := by
  induction ops generalizing stack with
  | nil => simpa using h
  | cons op rest ih =>
    simp only [List.foldl_cons]
    exact ih _ (navStep_pos _ _ h)

/-- C6: the navigation group stack always contains at least one entry:
`close_group` at depth 1 leaves the stack unchanged, and every sequence of
`open_group`/`close_group`/`go_to_root` calls starting from the boot stack
`["0"]` keeps the depth at least 1. -/
theorem C6_nav_stack_never_empty (ops : List NavOp) (s : List String)
    (hs : s.length = 1) :
    closeGroup s = s ∧ 0 < (ops.foldl navStep ["0"]).length := by
  constructor
  · simp [closeGroup, hs]
  · exact navSteps_pos ops ["0"] (by simp)

theorem C6_witness :
    closeGroup ["0"] = ["0"] ∧
      0 < ([NavOp.navOpen "1" true, NavOp.navClose, NavOp.navClose, NavOp.navRoot].foldl
            navStep ["0"]).length :=
  C6_nav_stack_never_empty [NavOp.navOpen "1" true, NavOp.navClose, NavOp.navClose,
    NavOp.navRoot] ["0"] rfl

/-! ### Claim C5: startup load of settings and macros -/

/-- C5 counterexample: the startup settings read catches only `OSError`, so
a present-but-corrupt settings file raises a `ValueError` out of the module
body instead of falling back to the defaults. -/
theorem C5_counterexample :
    loadSettingsFile defaultSettings (some "not json") = Except.error "ValueError" := by
  rfl

/-- C5 amended: a missing settings file falls back to the built-in
defaults, but a corrupt (unparsable) settings file raises (only `OSError`
is caught); the macro file is loaded under `except Exception`, so both a
missing and a corrupt macro file yield the default single-root store. -/
theorem C5_load_defaults_amended (d : List (String × JVal)) (s : String)
    (hs : jsonParse s = none) :
    loadSettingsFile d none = Except.ok d ∧
    loadSettingsFile d (some s) = Except.error "ValueError" ∧
    initMacroStore none = defaultMacroStore ∧
    initMacroStore (some s) = defaultMacroStore := by
  refine ⟨rfl, ?_, rfl, ?_⟩
  · simp [loadSettingsFile, hs]
  · simp [initMacroStore, hs]

theorem C5_witness :
    loadSettingsFile defaultSettings none = Except.ok defaultSettings ∧
    loadSettingsFile defaultSettings (some "not json") = Except.error "ValueError" ∧
    initMacroStore none = defaultMacroStore ∧
    initMacroStore (some "not json") = defaultMacroStore :=
  C5_load_defaults_amended defaultSettings "not json" rfl

/-! ### Claim C8: loading persisted settings objects -/

/-- C8 counterexample: `SETTINGS.update(json.load(f))` merges every key of
the persisted object, so an unrecognized key ("foo") is retained in the
loaded settings rather than ignored. -/
theorem C8_counterexample :
    loadSettingsFile defaultSettings (some "\x7b\"foo\":1\x7d")
        = Except.ok (dictUpdate defaultSettings [("foo", JVal.num 1)]) ∧
      dictLookup (dictUpdate defaultSettings [("foo", JVal.num 1)]) "foo"
        = some (JVal.num 1) := by
  exact ⟨rfl, rfl⟩

/-- C8 amended: loading a persisted settings object yields the default
value for each missing recognized key and preserves present keys, but
unrecognized keys are retained in the merged settings (not ignored),
because `dict.update` copies every key. -/
theorem C8_settings_merge_amended (s : String) (file : List (String × JVal))
    (k : String) (v : JVal)
    (hs : jsonParse s = some (JVal.obj file))
    (hnd : (file.map Prod.fst).Nodup) :
    loadSettingsFile defaultSettings (some s) = Except.ok (dictUpdate defaultSettings file) ∧
    (dictLookup file k = none →
      dictLookup (dictUpdate defaultSettings file) k = dictLookup defaultSettings k) ∧
    (dictLookup file k = some v →
      dictLookup (dictUpdate defaultSettings file) k = some v) := by
  refine ⟨?_, ?_, ?_⟩
  · simp [loadSettingsFile, hs]
  · intro h
    exact dictUpdate_lookup_none file defaultSettings k h
  · intro h
    exact dictUpdate_lookup_some file defaultSettings k v hnd h

theorem C8_witness :
    loadSettingsFile defaultSettings (some "\x7b\"sleeptime\":5,\"foo\":1\x7d")
        = Except.ok (dictUpdate defaultSettings [("sleeptime", JVal.num 5), ("foo", JVal.num 1)]) ∧
    (dictLookup [("sleeptime", JVal.num 5), ("foo", JVal.num 1)] "brightness" = none →
      dictLookup (dictUpdate defaultSettings [("sleeptime", JVal.num 5), ("foo", JVal.num 1)])
          "brightness" = dictLookup defaultSettings "brightness") ∧
    (dictLookup [("sleeptime", JVal.num 5), ("foo", JVal.num 1)] "brightness"
        = some (JVal.num 5) →
      dictLookup (dictUpdate defaultSettings [("sleeptime", JVal.num 5), ("foo", JVal.num 1)])
          "brightness" = some (JVal.num 5)) :=
  C8_settings_merge_amended "\x7b\"sleeptime\":5,\"foo\":1\x7d"
    [("sleeptime", JVal.num 5), ("foo", JVal.num 1)] "brightness" (JVal.num 5) rfl
    (by simp)

/-! ### Claim C10: `set_settings` writes the file but not the in-memory
settings -/

/-- C10: a successful `set_settings` writes the received object to the
settings file and leaves the in-memory `SETTINGS` mapping untouched, so a
later `get_settings` in the same session still answers with the values in
effect since boot. -/
theorem C10_set_settings_frame (st : AppState) (now : Rat) (content : JVal)
    (hro : st.readonly = false) :
    handleSerialData st now [("command", JVal.str "set_settings"), ("content", content)]
        = Except.ok ({ st with settingsFile := some content }, [],
            some [("ACK", JVal.str "Settings are set")]) ∧
    ({ st with settingsFile := some content } : AppState).settings = st.settings ∧
    handleSerialData { st with settingsFile := some content } now
        [("command", JVal.str "get_settings")]
        = Except.ok ({ st with settingsFile := some content }, [],
            some [("ACK", JVal.str "settings"), ("CONTENT", JVal.obj st.settings)]) := by
  refine ⟨?_, rfl, ?_⟩
  · simp [handleSerialData, dictLookup, hro]
  · simp [handleSerialData, dictLookup]

/-- A concrete boot state mirroring `MacroApp.__init__` with a writable
filesystem and the default macro store. -/
def appState0 : AppState :=
  { settings := defaultSettings
    settingsFile := none
    readonly := false
    macroStore := defaultMacroStore
    macroFile := none
    groupStack := ["0"]
    slots := List.replicate 12 initSlot
    encoderBindings := (none, none, none)
    displaySleep := false
    sleepTimer := 0 }

theorem C10_witness :
    handleSerialData appState0 0
        [("command", JVal.str "set_settings"), ("content", JVal.obj [("sleeptime", JVal.num 5)])]
        = Except.ok ({ appState0 with settingsFile := some (JVal.obj [("sleeptime", JVal.num 5)]) },
            [], some [("ACK", JVal.str "Settings are set")]) ∧
    ({ appState0 with settingsFile := some (JVal.obj [("sleeptime", JVal.num 5)]) } : AppState).settings
        = appState0.settings ∧
    handleSerialData { appState0 with settingsFile := some (JVal.obj [("sleeptime", JVal.num 5)]) } 0
        [("command", JVal.str "get_settings")]
        = Except.ok ({ appState0 with settingsFile := some (JVal.obj [("sleeptime", JVal.num 5)]) },
            [], some [("ACK", JVal.str "settings"), ("CONTENT", JVal.obj appState0.settings)]) :=
  C10_set_settings_frame appState0 0 (JVal.obj [("sleeptime", JVal.num 5)]) rfl

/-! ### Claim C2: KeyCode instruction semantics -/

/-- C2: for a `'kc'` instruction whose spec resolves to a non-empty code
list: on press, the literal spec "RELALL" releases all keyboard keys, a
`+`-prefixed spec presses then immediately releases the listed codes, a
`-`-prefixed spec releases them, and a bare spec presses them (a
comma-separated spec resolves to all listed codes, pressed together as a
chord); the same instruction run with `key_pressed=False` releases the
listed codes. -/
theorem C2_keycode_semantics (ext : ExtIface) (keyId spec : String) (st : RunState)
    (c : Nat) (cs : List Nat) (hc : kcCodes ext spec = c :: cs) :
    (spec = "RELALL" →
      runMacro ext keyId [JVal.obj [("kc", JVal.str spec)]] 0 true st
        = Except.ok (emit HidEvent.kbReleaseAll st)) ∧
    (firstChar spec = '+' →
      runMacro ext keyId [JVal.obj [("kc", JVal.str spec)]] 0 true st
        = Except.ok (emit (HidEvent.kbRelease (c :: cs)) (emit (HidEvent.kbPress (c :: cs)) st))) ∧
    (firstChar spec = '-' →
      runMacro ext keyId [JVal.obj [("kc", JVal.str spec)]] 0 true st
        = Except.ok (emit (HidEvent.kbRelease (c :: cs)) st)) ∧
    (spec ≠ "RELALL" → firstChar spec ≠ '+' → firstChar spec ≠ '-' →
      runMacro ext keyId [JVal.obj [("kc", JVal.str spec)]] 0 true st
        = Except.ok (emit (HidEvent.kbPress (c :: cs)) st)) ∧
    (runMacro ext keyId [JVal.obj [("kc", JVal.str spec)]] 0 false st
        = Except.ok (emit (HidEvent.kbRelease (c :: cs)) st)) := by
  have hrun : ∀ pr : Bool, runMacro ext keyId [JVal.obj [("kc", JVal.str spec)]] 0 pr st
      = Except.ok (execKc ext spec pr st) := by
    intro pr
    simp [runMacro, runMacroAux, execInst, dictLookup]
  refine ⟨?_, ?_, ?_, ?_, ?_⟩
  · intro hR
    subst hR
    rw [hrun true]
    simp [execKc, hc]
  · intro hplus
    have hR : spec ≠ "RELALL" := by
      intro hsp
      rw [hsp] at hplus
      exact absurd hplus (by decide)
    rw [hrun true]
    simp [execKc, hc, hR, hplus]
  · intro hminus
    have hR : spec ≠ "RELALL" := by
      intro hsp
      rw [hsp] at hminus
      exact absurd hminus (by decide)
    rw [hrun true]
    simp [execKc, hc, hR, hminus]
  · intro hR hplus hminus
    rw [hrun true]
    simp [execKc, hc, hR, hplus, hminus]
  · rw [hrun false]
    simp [execKc, hc]

/-- A sample external keycode table for the witnesses (the concrete code
values stand in for the keyboard layout's `Keycode` class). -/
def kcExt : ExtIface :=
  { keycode := fun n =>
      if n = "CONTROL" then some 224
      else if n = "C" then some 6
      else if n = "A" then some 4
      else if n = "RELALL" then some 255
      else none
    consumerCode := fun _ => none
    mouseButton := fun _ => none
    sysMethod := fun _ => false
    noteOk := fun _ => false }

/-- The interpreter state at boot: clock at 0, empty deferred queue, pitch
bend centred, no events yet. -/
def runState0 : RunState :=
  { now := 0, delayed := [], pitchBend := 8192, events := [] }

theorem C2_witness :
    ("CONTROL,C" = "RELALL" →
      runMacro kcExt "1" [JVal.obj [("kc", JVal.str "CONTROL,C")]] 0 true runState0
        = Except.ok (emit HidEvent.kbReleaseAll runState0)) ∧
    (firstChar "CONTROL,C" = '+' →
      runMacro kcExt "1" [JVal.obj [("kc", JVal.str "CONTROL,C")]] 0 true runState0
        = Except.ok (emit (HidEvent.kbRelease (224 :: [6]))
            (emit (HidEvent.kbPress (224 :: [6])) runState0))) ∧
    (firstChar "CONTROL,C" = '-' →
      runMacro kcExt "1" [JVal.obj [("kc", JVal.str "CONTROL,C")]] 0 true runState0
        = Except.ok (emit (HidEvent.kbRelease (224 :: [6])) runState0)) ∧
    ("CONTROL,C" ≠ "RELALL" → firstChar "CONTROL,C" ≠ '+' → firstChar "CONTROL,C" ≠ '-' →
      runMacro kcExt "1" [JVal.obj [("kc", JVal.str "CONTROL,C")]] 0 true runState0
        = Except.ok (emit (HidEvent.kbPress (224 :: [6])) runState0)) ∧
    (runMacro kcExt "1" [JVal.obj [("kc", JVal.str "CONTROL,C")]] 0 false runState0
        = Except.ok (emit (HidEvent.kbRelease (224 :: [6])) runState0)) :=
  C2_keycode_semantics kcExt "1" "CONTROL,C" runState0 224 [6] rfl

/-! ### Claim C4: retrigger timing -/

/-- A key slot bound to a retriggering macro, as `_update_tab` would set it
up. -/
def slotRetrig : KeySlot :=
  { slotType := some (JVal.str "macro")
    label := JVal.str "Copy"
    color := JVal.arr [JVal.num 0, JVal.num 255, JVal.num 0]
    retrigger := some (JVal.bool true)
    func := some KeyFunc.runMacroFn
    funcArgs := some ("1", JVal.arr []) }

/-- C4 counterexample: press key 0 at time 0; on the ticks at 0.8 s and at
0.9 s the callback fires on both, although both lie inside the first
threshold interval (0.75 s, 1.5 s] — the recorded press time is never
advanced, so the callback fires every tick once the threshold has passed,
not once per 0.75 s crossing. -/
theorem C4_counterexample :
    tickKeys [slotRetrig] (some (KeyEvt.evPressed 0)) 0 [] = ([(0, 0)], [0]) ∧
    tickKeys [slotRetrig] none (4 / 5) [(0, 0)] = ([(0, 0)], [0]) ∧
    tickKeys [slotRetrig] none (9 / 10) [(0, 0)] = ([(0, 0)], [0]) ∧
    (9 / 10 : Rat) - 0 < 2 * retriggerThreshold := by
  refine ⟨rfl, rfl, rfl, by norm_num [retriggerThreshold]⟩

/-- C4 amended: while a retriggerable key stays held past the 0.75 s
threshold, its callback fires on every main-loop tick (the recorded press
time is never reset after a firing), i.e. once per tick for as long as the
key is held — not once per 0.75 s interval. -/
theorem C4_retrigger_every_tick_amended (slots : List KeySlot)
    (active : List (Nat × Rat)) (n : Nat) (t now : Rat)
    (hmem : (n, t) ∈ active) (hth : retriggerThreshold < now - t) :
    (tickKeys slots none now active).1 = active ∧
    n ∈ (tickKeys slots none now active).2 := by
  constructor
  · rfl
  · simp only [tickKeys, List.nil_append, List.mem_map]
    refine ⟨(n, t), List.mem_filter.mpr ⟨hmem, ?_⟩, rfl⟩
    exact decide_eq_true hth

theorem C4_witness :
    (tickKeys [slotRetrig] none (4 / 5) [(0, 0)]).1 = [(0, 0)] ∧
    0 ∈ (tickKeys [slotRetrig] none (4 / 5) [(0, 0)]).2 :=
  C4_retrigger_every_tick_amended [slotRetrig] [(0, 0)] 0 0 (4 / 5)
    (List.mem_singleton.mpr rfl) (by norm_num [retriggerThreshold])

/-! ### Claim C3: `_update_tab` on missing ids / non-group nodes -/

/-- A store whose root group references child id "1", which has no entry. -/
def storeMissingChild : List (String × JVal) :=
  [("0", JVal.str "\x7b\"type\":\"group\",\"label\":\"Macros\",\"content\":[\"1\"]\x7d")]

/-- C3 counterexample: a key slot whose child id does not resolve to a
store entry is not treated as blank — `_update_tab` raises a `KeyError`
(uncaught by any caller), instead of binding no callback and continuing. -/
theorem C3_counterexample :
    updateTab storeMissingChild ["0"] (List.replicate 12 initSlot)
      = Except.error "KeyError: 1" := by
  rfl

/-- Whether an Except value is a success. -/
def exceptOk : Except String JVal → Bool
  | .ok _ => true
  | .error _ => false

theorem exceptOk_exists (e : Except String JVal) (h : exceptOk e = true) :
    ∃ v, e = .ok v := by
  cases e with
  | ok v => exact ⟨v, rfl⟩
  | error _ => simp [exceptOk] at h

/-- Whether one content entry can be fully processed by the slot loop of
`_update_tab`: it is falsy (left blank), or its id resolves to a stored
JSON string that parses to a node with `type`, `label`, `color` and
`content` fields. -/
def entryOk (store : List (String × JVal)) (e : JVal) : Bool :=
  !(jvTruthy e) ||
    (match dictLookup store (pyStr e) with
     | some (.str s) =>
       match jsonParse s with
       | some node =>
         exceptOk (jvIndex node "type") && exceptOk (jvIndex node "label") &&
           exceptOk (jvIndex node "color") && exceptOk (jvIndex node "content")
       | none => false
     | _ => false)

theorem setSlots_isOk (store : List (String × JVal)) (entries : List JVal)
    (i : Nat) (slots : List KeySlot)
    (h : ∀ e ∈ entries, entryOk store e = true) :
    ∃ slots2, setSlots store entries i slots = .ok slots2 := by
  induction entries generalizing i slots with
  | nil => exact ⟨slots, rfl⟩
  | cons e rest ih =>
    have he := h e (by simp)
    have hrest : ∀ e2 ∈ rest, entryOk store e2 = true := fun e2 h2 => h e2 (by simp [h2])
    by_cases ht : jvTruthy e
    · simp only [entryOk, ht, Bool.not_true, Bool.false_or] at he
      cases hd : dictLookup store (pyStr e) with
      | none => simp [hd] at he
      | some v =>
        simp only [hd] at he
        cases v with
        | str s =>
          cases hp : jsonParse s with
          | none => simp [hp] at he
          | some node =>
            simp only [hp, Bool.and_eq_true] at he
            obtain ⟨⟨⟨hty, hlab⟩, hcol⟩, hcon⟩ := he
            obtain ⟨ty, hty⟩ := exceptOk_exists _ hty
            obtain ⟨lab, hlab⟩ := exceptOk_exists _ hlab
            obtain ⟨col, hcol⟩ := exceptOk_exists _ hcol
            obtain ⟨con, hcon⟩ := exceptOk_exists _ hcon
            obtain ⟨slots2, h2⟩ := ih (i + 1)
              (slots.set i
                { slotType := some ty
                  label := lab
                  color := col
                  retrigger := some (nodeRetrigger node)
                  func := keyFuncsGet ty
                  funcArgs := some (pyStr e, con) })
              (fun e2 h2 => hrest e2 h2)
            refine ⟨slots2, ?_⟩
            simp only [setSlots, ht, if_true, hd, hp, hty, hlab, hcol, hcon]
            exact h2
        | null => simp at he
        | bool b => simp at he
        | num q => simp at he
        | arr l => simp at he
        | obj fs => simp at he
    · obtain ⟨slots2, h2⟩ := ih (i + 1) slots (fun e2 h2 => hrest e2 h2)
      refine ⟨slots2, ?_⟩
      simp only [setSlots, ht, if_false]
      exact h2

theorem setSlots_frame (store : List (String × JVal)) (entries : List JVal)
    (i : Nat) (slots slots2 : List KeySlot)
    (h : setSlots store entries i slots = .ok slots2) (j : Nat)
    (hj : j < i ∨ i + entries.length ≤ j ∨
      (∃ e, entries.get? (j - i) = some e ∧ jvTruthy e = false)) :
    slots2.get? j = slots.get? j := by
  induction entries generalizing i slots with
  | nil =>
    simp only [setSlots] at h
    cases h
    rfl
  | cons e rest ih =>
    have hshift : (j < i ∨ i + (e :: rest).length ≤ j ∨
        (∃ e2, (e :: rest).get? (j - i) = some e2 ∧ jvTruthy e2 = false)) →
        j ≠ i →
        (j < i + 1 ∨ (i + 1) + rest.length ≤ j ∨
          (∃ e2, rest.get? (j - (i + 1)) = some e2 ∧ jvTruthy e2 = false)) := by
      rintro (h1 | h2 | ⟨e2, he2, hf2⟩) hji
      · left; omega
      · right; left; simp only [List.length_cons] at h2; omega
      · by_cases hcmp : j ≤ i
        · left; omega
        · right; right
          refine ⟨e2, ?_, hf2⟩
          have heq : j - i = (j - (i + 1)) + 1 := by omega
          rw [heq] at he2
          simpa using he2
    by_cases ht : jvTruthy e
    · have hji : j ≠ i := by
        rcases hj with h1 | h2 | ⟨e2, he2, hf2⟩
        · omega
        · simp only [List.length_cons] at h2; omega
        · intro hh
          subst hh
          simp only [Nat.sub_self, List.get?_cons_zero, Option.some.injEq] at he2
          rw [← he2] at hf2
          rw [ht] at hf2
          cases hf2
      simp only [setSlots, ht, if_true] at h
      repeat' split at h
      all_goals try exact Except.noConfusion h
      rw [ih (i + 1) _ h (hshift hj hji)]
      exact List.get?_set_ne _ _ (fun hh => hji hh.symm)
    · simp only [setSlots, ht, if_false] at h
      by_cases hji : j = i
      · subst hji
        have h0 : rest.get? ((j + 1) - (j + 1)) = rest.get? 0 := by simp
        exact ih (j + 1) slots h (by left; omega)
      · exact ih (i + 1) slots h (hshift hj hji)

theorem setSlots_err_missing (store : List (String × JVal)) (entries : List JVal)
    (i : Nat) (slots : List KeySlot) (j : Nat) (e : JVal)
    (hj : entries.get? j = some e) (ht : jvTruthy e = true)
    (hmiss : dictLookup store (pyStr e) = none)
    (hpre : ∀ j2 e2, j2 < j → entries.get? j2 = some e2 → jvTruthy e2 = false) :
    setSlots store entries i slots = .error ("KeyError: " ++ pyStr e) := by
  induction entries generalizing i slots j with
  | nil => cases hj
  | cons a rest ih =>
    cases j with
    | zero =>
      simp only [List.get?_cons_zero, Option.some.injEq] at hj
      subst hj
      simp only [setSlots, ht, if_true, hmiss]
    | succ jj =>
      have hfa : jvTruthy a = false :=
        hpre 0 a (Nat.succ_pos jj) (by simp)
      simp only [setSlots, hfa, if_false]
      exact ih (i + 1) slots jj (by simpa using hj)
        (fun j2 e2 hlt he2 => hpre (j2 + 1) e2 (by omega) (by simpa using he2))

/-- C3 amended: after a navigation change, a key slot whose content entry
is falsy is treated as blank (its cleared slot keeps no callback and the
render succeeds, provided the other entries resolve); but a truthy child id
that does not resolve to a store entry makes `_update_tab` raise a
`KeyError` instead of blanking the slot, and a top-of-stack node that is
not a group receives no special handling (there is no fallback to root —
`updateTab` either renders the node's fields or propagates an exception). -/
theorem C3_update_tab_amended (store : List (String × JVal)) (stack : List String)
    (slots : List KeySlot) (top gs : String) (group contentV : JVal)
    (entries : List JVal)
    (htop : stack.getLast? = some top)
    (hsv : dictLookup store top = some (JVal.str gs))
    (hparse : jsonParse gs = some group)
    (hcontent : jvIndex group "content" = Except.ok contentV)
    (hslice : contentSlice contentV (slots.map clearProps).length = Except.ok entries) :
    ((∀ e ∈ entries, entryOk store e = true) →
      ∀ lab, jvIndex group "label" = Except.ok lab →
      ∃ slots2, updateTab store stack slots = Except.ok (slots2, lab) ∧
        ∀ j e, entries.get? j = some e → jvTruthy e = false →
          slots2.get? j = (slots.get? j).map clearProps) ∧
    (∀ j e, entries.get? j = some e → jvTruthy e = true →
      dictLookup store (pyStr e) = none →
      (∀ j2 e2, j2 < j → entries.get? j2 = some e2 → jvTruthy e2 = false) →
      updateTab store stack slots = Except.error ("KeyError: " ++ pyStr e)) := by
  constructor
  · intro hok lab hlab
    obtain ⟨slots2, h2⟩ := setSlots_isOk store entries 0 (slots.map clearProps) hok
    refine ⟨slots2, ?_, ?_⟩
    · simp only [updateTab, htop, hsv, hparse, hcontent, hslice, h2, hlab]
    · intro j e hj hf
      have := setSlots_frame store entries 0 (slots.map clearProps) slots2 h2 j
        (by right; right; exact ⟨e, by simpa using hj, hf⟩)
      rw [this]
      exact List.get?_map clearProps slots j
  · intro j e hj ht hmiss hpre
    have herr := setSlots_err_missing store entries 0 (slots.map clearProps) j e hj ht hmiss hpre
    simp only [updateTab, htop, hsv, hparse, hcontent, hslice, herr]

/-- A store with a root group whose first slot is blank (falsy `false`) and
whose second slot is a macro node. -/
def storeC3 : List (String × JVal) :=
  [("0", JVal.str "\x7b\"type\":\"group\",\"label\":\"Macros\",\"content\":[false,\"1\"]\x7d"),
   ("1", JVal.str "\x7b\"type\":\"macro\",\"label\":\"Copy\",\"color\":[0,255,0],\"content\":[\x7b\"kc\":\"A\"\x7d]\x7d")]

theorem C3_witness :
    ((∀ e ∈ [JVal.bool false, JVal.str "1"], entryOk storeC3 e = true) →
      ∀ lab, jvIndex (JVal.obj [("type", JVal.str "group"), ("label", JVal.str "Macros"),
          ("content", JVal.arr [JVal.bool false, JVal.str "1"])]) "label" = Except.ok lab →
      ∃ slots2, updateTab storeC3 ["0"] (List.replicate 12 initSlot) = Except.ok (slots2, lab) ∧
        ∀ j e, [JVal.bool false, JVal.str "1"].get? j = some e → jvTruthy e = false →
          slots2.get? j = ((List.replicate 12 initSlot).get? j).map clearProps) ∧
    (∀ j e, [JVal.bool false, JVal.str "1"].get? j = some e → jvTruthy e = true →
      dictLookup storeC3 (pyStr e) = none →
      (∀ j2 e2, j2 < j → [JVal.bool false, JVal.str "1"].get? j2 = some e2 → jvTruthy e2 = false) →
      updateTab storeC3 ["0"] (List.replicate 12 initSlot)
        = Except.error ("KeyError: " ++ pyStr e)) :=
  C3_update_tab_amended storeC3 ["0"] (List.replicate 12 initSlot) "0"
    "\x7b\"type\":\"group\",\"label\":\"Macros\",\"content\":[false,\"1\"]\x7d"
    (JVal.obj [("type", JVal.str "group"), ("label", JVal.str "Macros"),
      ("content", JVal.arr [JVal.bool false, JVal.str "1"])])
    (JVal.arr [JVal.bool false, JVal.str "1"])
    [JVal.bool false, JVal.str "1"] rfl rfl rfl rfl rfl

/-! ### Claim C7: streamed `set_macros` transfer -/

/-- `{"command": "set_macros", "content": "start"}`. -/
def startPayload : List (String × JVal) :=
  [("command", JVal.str "set_macros"), ("content", JVal.str "start")]

/-- `{"command": "set_macros", "content": "end"}`. -/
def endPayload : List (String × JVal) :=
  [("command", JVal.str "set_macros"), ("content", JVal.str "end")]

/-- `{"command": "set_macros", "id": <id>, "content": <node>}`. -/
def itemPayload (keyId : String) (content : JVal) : List (String × JVal) :=
  [("command", JVal.str "set_macros"), ("id", JVal.str keyId), ("content", content)]

theorem handle_item (st : AppState) (now : Rat) (k : String) (v : JVal)
    (hv1 : v ≠ JVal.str "start") (hv2 : v ≠ JVal.str "end") :
    handleSerialData st now (itemPayload k v)
      = Except.ok ({ st with macroStore := dictSet st.macroStore k v }, [], none) := by
  cases v with
  | str s =>
    have h1 : s ≠ "start" := fun h => hv1 (by rw [h])
    have h2 : s ≠ "end" := fun h => hv2 (by rw [h])
    simp [handleSerialData, itemPayload, dictLookup, h1, h2]
  | null => simp [handleSerialData, itemPayload, dictLookup]
  | bool b => simp [handleSerialData, itemPayload, dictLookup]
  | num q => simp [handleSerialData, itemPayload, dictLookup]
  | arr l => simp [handleSerialData, itemPayload, dictLookup]
  | obj fs => simp [handleSerialData, itemPayload, dictLookup]

theorem dictLookup_append_none (m1 m2 : List (String × JVal)) (k : String)
    (h1 : dictLookup m1 k = none) (h2 : dictLookup m2 k = none) :
    dictLookup (m1 ++ m2) k = none := by
  induction m1 with
  | nil => simpa using h2
  | cons kv rest ih =>
    obtain ⟨k1, v1⟩ := kv
    by_cases hk : k1 = k
    · simp [dictLookup, hk] at h1
    · simp only [dictLookup, if_neg hk] at h1
      simp only [List.cons_append, dictLookup, if_neg hk]
      exact ih h1

theorem runPayloads_items (now : Rat) (items : List (String × JVal)) (st : AppState)
    (hfresh : ∀ kv ∈ items, dictLookup st.macroStore kv.1 = none)
    (hnd : (items.map Prod.fst).Nodup)
    (hv : ∀ kv ∈ items, kv.2 ≠ JVal.str "start" ∧ kv.2 ≠ JVal.str "end") :
    runPayloads now st (items.map (fun kv => itemPayload kv.1 kv.2))
      = Except.ok ({ st with macroStore := st.macroStore ++ items },
          items.map (fun _ => none)) := by
  induction items generalizing st with
  | nil => simp [runPayloads]
  | cons kv rest ih =>
    obtain ⟨k, v⟩ := kv
    have hkv := hv (k, v) (by simp)
    have hstep := handle_item st now k v hkv.1 hkv.2
    have hset : dictSet st.macroStore k v = st.macroStore ++ [(k, v)] :=
      dictSet_append_of_none _ _ _ (hfresh (k, v) (by simp))
    simp only [List.map_cons, runPayloads, hstep, hset]
    have hnd2 : (rest.map Prod.fst).Nodup := by
      simp only [List.map_cons, List.nodup_cons] at hnd
      exact hnd.2
    have hknotin : k ∉ rest.map Prod.fst := by
      simp only [List.map_cons, List.nodup_cons] at hnd
      exact hnd.1
    have hfresh2 : ∀ kv2 ∈ rest,
        dictLookup (st.macroStore ++ [(k, v)]) kv2.1 = none := by
      intro kv2 h2
      refine dictLookup_append_none _ _ _ (hfresh kv2 (by simp [h2])) ?_
      have : kv2.1 ≠ k := by
        intro hh
        exact hknotin (hh ▸ List.mem_map_of_mem Prod.fst h2)
      simp only [dictLookup]
      rw [if_neg (fun hh : k = kv2.1 => this hh.symm)]
    have := ih ({ st with macroStore := st.macroStore ++ [(k, v)] }) hfresh2 hnd2
      (fun kv2 h2 => hv kv2 (by simp [h2]))
    rw [this]
    simp [List.append_assoc]

/-- C7 amended: a streamed `set_macros` transfer — `start`, then N items
with distinct ids (in any delivery order), then `end` — produces no
response for `start` or for any item, leaves the store holding exactly the
N transferred entries, and the `end` response is `{ACK: "Macros received"}`
whose CONTENT is `len(store) - 1`, i.e. N - 1 (the root entry is not
counted), not N.  The `end` step also refreshes the current group, which
must succeed for the response to be produced. -/
theorem C7_set_macros_stream_amended (st : AppState) (now : Rat)
    (items : List (String × JVal))
    (hnd : (items.map Prod.fst).Nodup)
    (hv : ∀ kv ∈ items, kv.2 ≠ JVal.str "start" ∧ kv.2 ≠ JVal.str "end")
    (enc : Option JVal × Option JVal × Option JVal) (slots1 : List KeySlot) (lab : JVal)
    (hinit : initGroupParts items st.groupStack st.slots = Except.ok (enc, slots1, lab)) :
    runPayloads now st
        (startPayload :: (items.map (fun kv => itemPayload kv.1 kv.2) ++ [endPayload]))
      = Except.ok
          (displayOn now { st with macroStore := items, slots := slots1, encoderBindings := enc },
           none :: (items.map (fun _ => none) ++
             [some [("ACK", JVal.str "Macros received"),
                    ("CONTENT", JVal.num ((items.length : Rat) - 1))]])) ∧
    (displayOn now
        { st with macroStore := items, slots := slots1, encoderBindings := enc }).macroStore
      = items := by
  have hstart : handleSerialData st now startPayload
      = Except.ok ({ st with macroStore := [] }, [], none) := by
    simp [handleSerialData, startPayload, dictLookup]
  have hmid := runPayloads_items now items { st with macroStore := [] }
    (fun kv _ => rfl) hnd hv
  have hend : handleSerialData { st with macroStore := items } now endPayload
      = Except.ok
          (displayOn now { st with macroStore := items, slots := slots1, encoderBindings := enc },
           [], some [("ACK", JVal.str "Macros received"),
                     ("CONTENT", JVal.num ((items.length : Rat) - 1))]) := by
    simp [handleSerialData, endPayload, dictLookup, hinit]
  constructor
  · have hmid2 : runPayloads now ({ st with macroStore := [] })
        (items.map (fun kv => itemPayload kv.1 kv.2))
        = Except.ok ({ st with macroStore := items }, items.map (fun _ => none)) := by
      simpa using hmid
    -- split the payload list: start, then items, then end
    have hsplit : ∀ (st1 : AppState) (ps : List (List (String × JVal)))
        (st2 : AppState) (rs : List (Option RespObj)),
        runPayloads now st1 ps = Except.ok (st2, rs) →
        runPayloads now st1 (ps ++ [endPayload])
          = (match handleSerialData st2 now endPayload with
             | .error e => .error e
             | .ok (st3, _, r) => Except.ok (st3, rs ++ [r])) := by
      intro st1 ps
      induction ps generalizing st1 with
      | nil =>
        intro st2 rs h
        simp only [runPayloads] at h
        cases h
        simp only [List.nil_append, runPayloads]
      | cons p ps2 ih =>
        intro st2 rs h
        simp only [runPayloads] at h
        cases hh : handleSerialData st1 now p with
        | error e =>
          simp only [hh] at h
          exact Except.noConfusion h
        | ok res =>
          obtain ⟨stm, sent, r⟩ := res
          simp only [hh] at h
          cases hrest : runPayloads now stm ps2 with
          | error e =>
            simp only [hrest] at h
            exact Except.noConfusion h
          | ok res2 =>
            obtain ⟨st2b, rs2⟩ := res2
            simp only [hrest, Except.ok.injEq, Prod.mk.injEq] at h
            obtain ⟨hst, hrs⟩ := h
            subst hst
            subst hrs
            simp only [List.cons_append, runPayloads, hh, List.append_eq]
            rw [ih stm st2b rs2 hrest]
            cases hend3 : handleSerialData st2b now endPayload with
            | error e => rfl
            | ok res3 =>
              obtain ⟨st3, sent3, r3⟩ := res3
              simp
    simp only [runPayloads, hstart]
    rw [hsplit ({ st with macroStore := [] }) _ _ _ hmid2]
    rw [hend]
  · rfl

set_option maxRecDepth 4000 in
/-- C7 counterexample: a transfer of N = 1 item answers `end` with
CONTENT = 0, not the count 1 of transferred entries (the code returns
`len(macro_store) - 1`). -/
theorem C7_counterexample :
    (runPayloads 0 appState0
        [startPayload, itemPayload "0" (JVal.str macroDefaultText), endPayload]).map
        (fun p => p.2)
      = Except.ok [none, none,
          some [("ACK", JVal.str "Macros received"), ("CONTENT", JVal.num 0)]] ∧
    JVal.num 0 ≠ JVal.num ((1 : Nat) : Rat) := by
  constructor
  · rfl
  · intro h
    cases h

set_option maxRecDepth 4000 in
theorem C7_witness :
    runPayloads 0 appState0
        (startPayload ::
          ([("0", JVal.str macroDefaultText)].map (fun kv => itemPayload kv.1 kv.2) ++
            [endPayload]))
      = Except.ok
          (displayOn 0
            { appState0 with
                macroStore := [("0", JVal.str macroDefaultText)]
                slots := (List.replicate 12 initSlot).map clearProps
                encoderBindings :=
                  (some (JVal.arr []), some (JVal.arr []), some (JVal.arr [])) },
           none :: ([("0", JVal.str macroDefaultText)].map (fun _ => none) ++
             [some [("ACK", JVal.str "Macros received"),
                    ("CONTENT", JVal.num ((([("0", JVal.str macroDefaultText)].length : Nat) : Rat) - 1))]])) ∧
    (displayOn 0
        { appState0 with
            macroStore := [("0", JVal.str macroDefaultText)]
            slots := (List.replicate 12 initSlot).map clearProps
            encoderBindings :=
              (some (JVal.arr []), some (JVal.arr []), some (JVal.arr [])) }).macroStore
      = [("0", JVal.str macroDefaultText)] :=
  C7_set_macros_stream_amended appState0 0 [("0", JVal.str macroDefaultText)]
    (by simp)
    (by
      intro kv hkv
      simp only [List.mem_singleton] at hkv
      subst hkv
      refine ⟨?_, ?_⟩
      · intro h
        simp [macroDefaultText] at h
      · intro h
        simp [macroDefaultText] at h)
    (some (JVal.arr []), some (JVal.arr []), some (JVal.arr []))
    ((List.replicate 12 initSlot).map clearProps) (JVal.str "Macros") rfl

/-! ### Claim C1: negative delay defers the rest of the macro -/

theorem execKc_delayed (ext : ExtIface) (spec : String) (pr : Bool) (st : RunState) :
    (execKc ext spec pr st).delayed = st.delayed := by
  unfold execKc
  repeat' split
  all_goals simp [emit]

theorem execCcc_delayed (ext : ExtIface) (spec : String) (pr : Bool) (st : RunState) :
    (execCcc ext spec pr st).delayed = st.delayed := by
  unfold execCcc
  repeat' split
  all_goals simp [emit]

theorem execMse_delayed (ext : ExtIface) (v : JVal) (pr : Bool) (st st2 : RunState)
    (h : execMse ext v pr st = .ok st2) : st2.delayed = st.delayed := by
  unfold execMse at h
  repeat' split at h
  all_goals try exact Except.noConfusion h
  all_goals (cases h; simp [emit])

theorem execTone_delayed (v : JVal) (pr : Bool) (st st2 : RunState)
    (h : execTone v pr st = .ok st2) : st2.delayed = st.delayed := by
  unfold execTone at h
  repeat' split at h
  all_goals try exact Except.noConfusion h
  all_goals (cases h; simp [emit])

theorem execMidi_delayed (ext : ExtIface) (v : JVal) (pr : Bool) (st st2 : RunState)
    (h : execMidi ext v pr st = .ok st2) : st2.delayed = st.delayed := by
  unfold execMidi at h
  repeat' split at h
  all_goals try exact Except.noConfusion h
  all_goals (cases h; simp [emit, sleepq])

theorem execInst_delayed (ext : ExtIface) (pr : Bool) (inst : JVal) (st st2 : RunState)
    (h : execInst ext pr inst st = .ok st2) : st2.delayed = st.delayed := by
  unfold execInst at h
  repeat' split at h
  all_goals try exact Except.noConfusion h
  all_goals try (exact execMse_delayed _ _ _ _ _ h)
  all_goals try (exact execTone_delayed _ _ _ _ h)
  all_goals try (exact execMidi_delayed _ _ _ _ _ h)
  all_goals cases h
  all_goals try (exact execKc_delayed _ _ _ _)
  all_goals try (exact execCcc_delayed _ _ _ _)
  all_goals simp [emit, sleepq]

theorem runMacroAux_cons_exec (ext : ExtIface) (keyId : String) (s : Nat) (pr : Bool)
    (a : JVal) (rest : List JVal) (idx : Nat) (st : RunState)
    (hidx : ¬ idx < s) (hnum : ∀ d, a ≠ JVal.num d) :
    runMacroAux ext keyId s pr (a :: rest) idx st
      = match execInst ext pr a st with
        | .ok st1 => runMacroAux ext keyId s pr rest (idx + 1) st1
        | .error e => .error e := by
  cases a with
  | num d => exact absurd rfl (hnum d)
  | null => simp [runMacroAux, hidx]
  | bool b => simp [runMacroAux, hidx]
  | str s2 => simp [runMacroAux, hidx]
  | arr l2 => simp [runMacroAux, hidx]
  | obj fs => simp [runMacroAux, hidx]

theorem runMacroAux_break (ext : ExtIface) (keyId : String) (s : Nat)
    (l : List JVal) (idx : Nat) (st stMid : RunState) (p : Nat) (d : Rat)
    (hp : l.get? p = some (JVal.num d)) (hd : d < 0) (hsp : s ≤ idx + p)
    (hfirst : ∀ j d2, j < p → s ≤ idx + j → l.get? j = some (JVal.num d2) → 0 ≤ d2)
    (hpre : runMacroAux ext keyId s true (l.take p) idx st = .ok stMid) :
    runMacroAux ext keyId s true l idx st
      = .ok (addDelayedMacro keyId (idx + p + 1) true (abs d) stMid) ∧
    stMid.delayed = st.delayed := by
  induction l generalizing idx st stMid p with
  | nil => cases hp
  | cons a rest ih =>
    cases p with
    | zero =>
      simp only [List.get?_cons_zero, Option.some.injEq] at hp
      subst hp
      simp only [List.take_zero, runMacroAux] at hpre
      cases hpre
      have hidx : ¬ idx < s := by omega
      refine ⟨?_, rfl⟩
      simp only [runMacroAux, if_neg hidx, if_pos hd]
      simp
    | succ q =>
      by_cases hidx : idx < s
      · simp only [List.take_succ_cons, runMacroAux, if_pos hidx] at hpre
        have hres := ih (idx + 1) st stMid q (by simpa using hp) (by omega)
          (fun j d2 hj hsj hg => hfirst (j + 1) d2 (by omega) (by omega) (by simpa using hg))
          hpre
        have harith : idx + 1 + q + 1 = idx + (q + 1) + 1 := by omega
        rw [harith] at hres
        refine ⟨?_, hres.2⟩
        simp only [runMacroAux, if_pos hidx]
        exact hres.1
      · by_cases hnum : ∃ d2, a = JVal.num d2
        · obtain ⟨d2, ha⟩ := hnum
          subst ha
          have hd2 : 0 ≤ d2 := hfirst 0 d2 (Nat.succ_pos q) (by omega) (by simp)
          have hnn : ¬ d2 < 0 := not_lt.mpr hd2
          simp only [List.take_succ_cons, runMacroAux, if_neg hidx, if_true, if_neg hnn] at hpre
          have hres := ih (idx + 1) (sleepq d2 st) stMid q (by simpa using hp) (by omega)
            (fun j d3 hj hsj hg => hfirst (j + 1) d3 (by omega) (by omega) (by simpa using hg))
            hpre
          have harith : idx + 1 + q + 1 = idx + (q + 1) + 1 := by omega
          rw [harith] at hres
          refine ⟨?_, by rw [hres.2]; rfl⟩
          simp only [runMacroAux, if_neg hidx, if_true, if_neg hnn]
          exact hres.1
        · push_neg at hnum
          rw [List.take_succ_cons, runMacroAux_cons_exec ext keyId s true a (rest.take q) idx st
            hidx hnum] at hpre
          cases hex : execInst ext true a st with
          | error e =>
            rw [hex] at hpre
            exact Except.noConfusion hpre
          | ok st1 =>
            rw [hex] at hpre
            have hres := ih (idx + 1) st1 stMid q (by simpa using hp) (by omega)
              (fun j d3 hj hsj hg => hfirst (j + 1) d3 (by omega) (by omega) (by simpa using hg))
              hpre
            have harith : idx + 1 + q + 1 = idx + (q + 1) + 1 := by omega
            rw [harith] at hres
            refine ⟨?_, by rw [hres.2, execInst_delayed ext true a st st1 hex]⟩
            rw [runMacroAux_cons_exec ext keyId s true a rest idx st hidx hnum, hex]
            exact hres.1

/-- C1: if the instruction at the first position `p` at or after
`start_index` holding a negative number `d` is reached during a press, the
call records `(key_id, p+1, pressed, now + abs d)` into the deferred queue
(kept sorted by due time) and stops without executing anything after
position `p`; on a later main-loop tick whose time has reached the
recorded due time (and with this entry at the head of the queue), the
remaining instructions resume from `p+1` exactly once — the entry is
consumed — while a tick before the due time does nothing. -/
theorem C1_negative_delay_defers (ext : ExtIface) (store : List (String × JVal))
    (keyId srcText : String) (node cv : JVal) (l : List JVal) (s p : Nat) (d : Rat)
    (st0 stMid stLate stEarly : RunState)
    (hp : l.get? p = some (JVal.num d)) (hd : d < 0) (hsp : s ≤ p)
    (hfirst : ∀ j d2, j < p → s ≤ j → l.get? j = some (JVal.num d2) → 0 ≤ d2)
    (hpre : runMacro ext keyId (l.take p) s true st0 = Except.ok stMid)
    (hq0 : st0.delayed = [])
    (hsv : dictLookup store keyId = some (JVal.str srcText))
    (hparse : jsonParse srcText = some node)
    (hcf : jvIndex node "content" = Except.ok cv)
    (hiter : contentIter cv = Except.ok l)
    (hLd : stLate.delayed = [(keyId, p + 1, true, stMid.now + abs d)])
    (hLt : stMid.now + abs d ≤ stLate.now)
    (hEd : stEarly.delayed = [(keyId, p + 1, true, stMid.now + abs d)])
    (hEt : stEarly.now < stMid.now + abs d) :
    runMacro ext keyId l s true st0
      = Except.ok (addDelayedMacro keyId (p + 1) true (abs d) stMid) ∧
    (addDelayedMacro keyId (p + 1) true (abs d) stMid).delayed
      = [(keyId, p + 1, true, stMid.now + abs d)] ∧
    tickDelayed ext store stLate
      = runMacro ext keyId l (p + 1) true { stLate with delayed := [] } ∧
    tickDelayed ext store stEarly = Except.ok stEarly := by
  have hbreak := runMacroAux_break ext keyId s l 0 st0 stMid p d hp hd (by omega)
    (fun j d2 hj hsj hg => hfirst j d2 hj (by omega) hg) hpre
  refine ⟨?_, ?_, ?_, ?_⟩
  · have := hbreak.1
    simpa [runMacro] using this
  · have hmid : stMid.delayed = [] := hbreak.2.trans hq0
    simp [addDelayedMacro, hmid, sortByDue, insByDue]
  · simp only [tickDelayed, hLd, if_pos hLt, hsv, hparse, hcf, hiter]
  · simp only [tickDelayed, hEd, if_neg (not_le.mpr hEt)]

/-- A stored macro whose content defers after half a second:
`[-0.5, {"kc": "A"}]`. -/
def c1Text : String :=
  "\x7b\"type\":\"macro\",\"label\":\"M\",\"color\":[0,0,0],\"content\":[-0.5,\x7b\"kc\":\"A\"\x7d]\x7d"

/-- The store holding only that macro under id "1". -/
def c1Store : List (String × JVal) :=
  [("1", JVal.str c1Text)]

/-- The parsed content of `c1Text`. -/
def c1Content : List JVal :=
  [JVal.num (-(1 / 2)), JVal.obj [("kc", JVal.str "A")]]

/-- The parsed node of `c1Text`. -/
def c1Node : JVal :=
  JVal.obj [("type", JVal.str "macro"), ("label", JVal.str "M"),
    ("color", JVal.arr [JVal.num 0, JVal.num 0, JVal.num 0]),
    ("content", JVal.arr c1Content)]

/-- A main-loop state past the recorded due time. -/
def stLateC1 : RunState :=
  { now := 1, delayed := [("1", 1, true, 1 / 2)], pitchBend := 8192, events := [] }

/-- A main-loop state before the recorded due time. -/
def stEarlyC1 : RunState :=
  { now := 1 / 4, delayed := [("1", 1, true, 1 / 2)], pitchBend := 8192, events := [] }

theorem C1_witness :
    runMacro kcExt "1" c1Content 0 true runState0
      = Except.ok (addDelayedMacro "1" 1 true (abs (-((1 : Rat) / 2))) runState0) ∧
    (addDelayedMacro "1" 1 true (abs (-((1 : Rat) / 2))) runState0).delayed
      = [("1", 1, true, runState0.now + abs (-((1 : Rat) / 2)))] ∧
    tickDelayed kcExt c1Store stLateC1
      = runMacro kcExt "1" c1Content 1 true { stLateC1 with delayed := [] } ∧
    tickDelayed kcExt c1Store stEarlyC1 = Except.ok stEarlyC1 :=
  C1_negative_delay_defers kcExt c1Store "1" c1Text c1Node (JVal.arr c1Content)
    c1Content 0 0 (-(1 / 2)) runState0 runState0 stLateC1 stEarlyC1
    rfl (by decide) (by omega)
    (fun j d2 hj _ _ => absurd hj (Nat.not_lt_zero j))
    rfl rfl rfl rfl rfl rfl
    (by decide) (by decide) (by decide) (by decide)

/-! ### Claim C9: save/load round trip of the macro file -/

theorem stringMk_toList (s : String) : String.mk s.toList = s :=
  rfl

theorem escapeQuotes_cons (c : Char) (cs : List Char) :
    escapeQuotes (c :: cs)
      = (if c = '"' then ['\\', '"'] else [c]) ++ escapeQuotes cs := by
  simp [escapeQuotes]

theorem escapeQuotes_id (cs : List Char) (h : '"' ∉ cs) : escapeQuotes cs = cs := by
  induction cs with
  | nil => rfl
  | cons c rest ih =>
    simp only [List.mem_cons] at h
    push_neg at h
    rw [escapeQuotes_cons, if_neg (fun hh => h.1 hh.symm), ih h.2]
    rfl

theorem parseJStringAux_cons (acc : List Char) (c : Char) (rest : List Char) :
    parseJStringAux acc (c :: rest)
      = if c = '\\' then
          (match rest with
           | [] => none
           | e :: rest2 =>
             match unescapeChar e with
             | some c2 => parseJStringAux (acc ++ [c2]) rest2
             | none => none)
        else if c = '"' then some (String.mk acc, rest)
        else parseJStringAux (acc ++ [c]) rest := by
  rw [parseJStringAux.eq_def]

theorem parseJStringAux_escaped (v : List Char) (acc rest : List Char)
    (hv : '\\' ∉ v) :
    parseJStringAux acc (escapeQuotes v ++ '"' :: rest)
      = some (String.mk (acc ++ v), rest) := by
  induction v generalizing acc with
  | nil =>
    simp only [escapeQuotes, List.map_nil, List.flatten_nil, List.nil_append, List.append_nil]
    rw [parseJStringAux_cons, if_neg (by decide : ¬ ('"' : Char) = '\\'), if_pos rfl]
  | cons c v2 ih =>
    simp only [List.mem_cons] at hv
    push_neg at hv
    have hcb : c ≠ '\\' := fun hh => hv.1 hh.symm
    rw [escapeQuotes_cons]
    by_cases hq : c = '"'
    · subst hq
      rw [if_pos rfl]
      have hl : (['\\', '"'] ++ escapeQuotes v2) ++ '"' :: rest
          = '\\' :: '"' :: (escapeQuotes v2 ++ '"' :: rest) := by simp
      rw [hl, parseJStringAux_cons, if_pos rfl]
      have hu : unescapeChar '"' = some '"' := by decide
      simp only [hu]
      rw [ih (acc ++ ['"']) hv.2]
      simp
    · rw [if_neg hq]
      have hl : ([c] ++ escapeQuotes v2) ++ '"' :: rest
          = c :: (escapeQuotes v2 ++ '"' :: rest) := by simp
      rw [hl, parseJStringAux_cons, if_neg hcb, if_neg hq, ih (acc ++ [c]) hv.2]
      simp

theorem parseJString_key (k : String) (rest : List Char)
    (hq : '"' ∉ k.toList) (hb : '\\' ∉ k.toList) :
    parseJString (k.toList ++ '"' :: rest) = some (k, rest) := by
  have := parseJStringAux_escaped k.toList [] rest hb
  rw [escapeQuotes_id k.toList hq] at this
  simp only [List.nil_append] at this
  rw [parseJString, this, stringMk_toList]

theorem parseJString_val (s : String) (rest : List Char) (hb : '\\' ∉ s.toList) :
    parseJString (escapeQuotes s.toList ++ '"' :: rest) = some (s, rest) := by
  have := parseJStringAux_escaped s.toList [] rest hb
  simp only [List.nil_append] at this
  rw [parseJString, this, stringMk_toList]

theorem skipWs_nl (cs : List Char) : skipWs ('\n' :: cs) = skipWs cs := by
  simp [skipWs]

theorem skipWs_quote (cs : List Char) : skipWs ('"' :: cs) = '"' :: cs := by
  simp [skipWs]

theorem skipWs_colon (cs : List Char) : skipWs (':' :: cs) = ':' :: cs := by
  simp [skipWs]

theorem skipWs_comma (cs : List Char) : skipWs (',' :: cs) = ',' :: cs := by
  simp [skipWs]

theorem skipWs_rbrace (cs : List Char) : skipWs ('\x7d' :: cs) = '\x7d' :: cs := by
  simp [skipWs]

/-- Keys and values the quote-only escaping of `_save_macros` handles
correctly: keys free of quotes and backslashes, values that are strings
free of backslashes. -/
def entryWritable (kv : String × JVal) : Prop :=
  ('"' ∉ kv.1.toList ∧ '\\' ∉ kv.1.toList) ∧ ∃ s, kv.2 = JVal.str s ∧ '\\' ∉ s.toList

set_option maxHeartbeats 1000000 in
theorem parseVal_string (fuel : Nat) (s : String) (rest : List Char)
    (hf : 1 ≤ fuel) (hb : '\\' ∉ s.toList) :
    parseVal fuel ('"' :: (escapeQuotes s.toList ++ '"' :: rest))
      = some (JVal.str s, rest) := by
  cases fuel with
  | zero => omega
  | succ f =>
    simp only [parseVal, skipWs_quote, parseJString_val s rest hb]
    rfl

theorem parseObjLoop_render (entries : List (String × JVal)) (fuel : Nat)
    (acc : List (String × JVal)) (tail : List Char)
    (hne : entries ≠ [])
    (hw : ∀ kv ∈ entries, entryWritable kv)
    (hfuel : entries.length + 1 ≤ fuel) :
    parseObjLoop fuel ('\n' :: (renderEntries entries ++ '\n' :: '\x7d' :: tail)) acc
      = some (JVal.obj (entries.foldl (fun a kv => dictSet a kv.1 kv.2) acc), tail) := by
  induction entries generalizing fuel acc with
  | nil => exact absurd rfl hne
  | cons kv rest ih =>
    obtain ⟨⟨hkq, hkb⟩, sval, hvs, hvb⟩ := hw kv (by simp)
    obtain ⟨k, v⟩ := kv
    simp only at hvs hkq hkb
    subst hvs
    cases fuel with
    | zero => simp at hfuel
    | succ f =>
      cases f with
      | zero => simp at hfuel
      | succ f2 =>
        have hpy : pyStr (JVal.str sval) = sval := rfl
        have hg1 : 1 ≤ f2 + 1 := by omega
        cases rest with
        | nil =>
          have hshape : '\n' :: (renderEntries [(k, JVal.str sval)] ++ '\n' :: '\x7d' :: tail)
              = '\n' :: '"' :: (k.toList ++ '"' ::
                  (':' :: ('"' :: (escapeQuotes sval.toList ++ '"' ::
                    ('\n' :: '\x7d' :: tail))))) := by
            simp [renderEntries, renderEntry, hpy]
          rw [hshape]
          simp only [parseObjLoop, skipWs_nl, skipWs_quote,
            parseJString_key k (':' :: ('"' :: (escapeQuotes sval.toList ++ '"' ::
              ('\n' :: '\x7d' :: tail)))) hkq hkb,
            skipWs_colon,
            parseVal_string (f2 + 1) sval ('\n' :: '\x7d' :: tail) hg1 hvb,
            skipWs_rbrace]
          simp
        | cons kv2 rest2 =>
          obtain ⟨g, hg⟩ : ∃ g, g = f2 + 1 := ⟨f2 + 1, rfl⟩
          have hgone : 1 ≤ g := by omega
          have hfg : f2 + 1 + 1 = g + 1 := by omega
          have hshape : '\n' :: (renderEntries ((k, JVal.str sval) :: kv2 :: rest2) ++ '\n' :: '\x7d' :: tail)
              = '\n' :: '"' :: (k.toList ++ '"' ::
                  (':' :: ('"' :: (escapeQuotes sval.toList ++ '"' ::
                    (',' :: '\n' :: (renderEntries (kv2 :: rest2) ++ '\n' :: '\x7d' :: tail)))))) := by
            simp [renderEntries, renderEntry, hpy]
          rw [hshape, hfg]
          simp only [parseObjLoop, skipWs_nl, skipWs_quote,
            parseJString_key k (':' :: ('"' :: (escapeQuotes sval.toList ++ '"' ::
              (',' :: '\n' :: (renderEntries (kv2 :: rest2) ++ '\n' :: '\x7d' :: tail))))) hkq hkb,
            skipWs_colon,
            parseVal_string g sval (',' :: '\n' :: (renderEntries (kv2 :: rest2) ++ '\n' :: '\x7d' :: tail)) hgone hvb,
            skipWs_comma]
          rw [hg, ih (f2 + 1) (dictSet acc k (JVal.str sval)) (by simp)
            (fun kv3 h3 => hw kv3 (by simp [h3])) (by simp at hfuel ⊢; omega)]
          simp

theorem skipWs_lbrace (cs : List Char) : skipWs ('\x7b' :: cs) = '\x7b' :: cs := by
  simp [skipWs]

theorem renderEntries_length (entries : List (String × JVal)) :
    entries.length ≤ (renderEntries entries).length := by
  induction entries with
  | nil => simp [renderEntries]
  | cons kv rest ih =>
    cases rest with
    | nil => simp [renderEntries, renderEntry]
    | cons r rs =>
      simp only [renderEntries, List.length_append, List.length_cons]
      have h1 : 1 ≤ (renderEntry kv).length := by simp [renderEntry]
      simp only [List.length_cons] at ih
      omega

theorem foldl_dictSet_fresh (entries : List (String × JVal)) (acc : List (String × JVal))
    (hfresh : ∀ kv ∈ entries, dictLookup acc kv.1 = none)
    (hnd : (entries.map Prod.fst).Nodup) :
    entries.foldl (fun a kv => dictSet a kv.1 kv.2) acc = acc ++ entries := by
  induction entries generalizing acc with
  | nil => simp
  | cons kv rest ih =>
    simp only [List.map_cons, List.nodup_cons] at hnd
    simp only [List.foldl_cons]
    rw [dictSet_append_of_none _ _ _ (hfresh kv (by simp))]
    have hfresh2 : ∀ kv2 ∈ rest, dictLookup (acc ++ [kv]) kv2.1 = none := by
      intro kv2 h2
      refine dictLookup_append_none _ _ _ (hfresh kv2 (by simp [h2])) ?_
      have hne : kv2.1 ≠ kv.1 := by
        intro hh
        exact hnd.1 (hh ▸ List.mem_map_of_mem Prod.fst h2)
      simp only [dictLookup]
      rw [if_neg (fun hh : kv.1 = kv2.1 => hne hh.symm)]
    rw [ih (acc ++ [kv]) hfresh2 hnd.2]
    simp

/-- C9 amended: saving the macro store with `_save_macros` and reloading
the file with `_init_macros` reproduces the store, provided every id is
free of quote and backslash characters and every stored node is a string
free of backslashes — `_save_macros` re-escapes only double quotes
(`str(macro).replace("\"", "\\\"")`), so a backslash in a stored node
corrupts the round trip. -/
theorem C9_roundtrip_amended (store : List (String × JVal))
    (hnd : (store.map Prod.fst).Nodup)
    (hw : ∀ kv ∈ store, entryWritable kv) :
    initMacroStore (some (saveMacros store)) = store := by
  cases store with
  | nil => rfl
  | cons kv rest =>
    have hhead : ∃ Y, renderEntries (kv :: rest) = '"' :: Y := by
      cases rest with
      | nil => exact ⟨_, rfl⟩
      | cons r rs => exact ⟨_, rfl⟩
    obtain ⟨Y, hY⟩ := hhead
    have htl : (saveMacros (kv :: rest)).toList
        = '\x7b' :: '\n' :: (renderEntries (kv :: rest) ++ ['\n', '\x7d']) := rfl
    have hsk : skipWs ('\n' :: (renderEntries (kv :: rest) ++ ['\n', '\x7d']))
        = '"' :: (Y ++ ['\n', '\x7d']) := by
      rw [skipWs_nl, hY, List.cons_append, skipWs_quote]
    have hfuelb : (kv :: rest).length + 1
        ≤ 2 * ('\x7b' :: '\n' :: (renderEntries (kv :: rest) ++ ['\n', '\x7d'])).length + 1 := by
      have := renderEntries_length (kv :: rest)
      simp only [List.length_cons, List.length_append] at this ⊢
      omega
    have hobj := parseObjLoop_render (kv :: rest)
      (2 * ('\x7b' :: '\n' :: (renderEntries (kv :: rest) ++ ['\n', '\x7d'])).length + 1)
      [] [] (by simp) hw hfuelb
    have hfold : (kv :: rest).foldl (fun a kv2 => dictSet a kv2.1 kv2.2) []
        = kv :: rest := by
      rw [foldl_dictSet_fresh (kv :: rest) [] (fun kv2 _ => rfl) hnd]
      simp
    have hparse : jsonParse (saveMacros (kv :: rest)) = some (JVal.obj (kv :: rest)) := by
      simp only [jsonParse, htl]
      have hsucc : 2 * ('\x7b' :: '\n' :: (renderEntries (kv :: rest) ++ ['\n', '\x7d'])).length + 2
          = (2 * ('\x7b' :: '\n' :: (renderEntries (kv :: rest) ++ ['\n', '\x7d'])).length + 1) + 1 := by
        omega
      rw [hsucc]
      simp only [parseVal, skipWs_lbrace, hsk]
      rw [hobj, hfold]
      rfl
    simp only [initMacroStore, hparse]

/-- C9 counterexample: a stored node containing a backslash does not
round-trip — `_save_macros` escapes only quotes, so the saved text
`"a\b"` re-parses as the two characters `a`, backspace. -/
theorem C9_counterexample :
    initMacroStore (some (saveMacros [("0", JVal.str "a\\b")]))
      = [("0", JVal.str (String.mk ['a', Char.ofNat 8]))] ∧
    String.mk ['a', Char.ofNat 8] ≠ "a\\b" := by
  exact ⟨rfl, by decide⟩

theorem C9_witness :
    initMacroStore (some (saveMacros defaultMacroStore)) = defaultMacroStore :=
  C9_roundtrip_amended defaultMacroStore (by simp [defaultMacroStore])
    (by
      intro kv h
      simp only [defaultMacroStore, List.mem_singleton] at h
      subst h
      exact ⟨⟨by decide, by decide⟩, macroDefaultText, rfl, by decide⟩)
